import Mathlib

/-
Verification of the OwO-lang translator (src/main.rs): the lexer `tokenize`
and the single-pass code generator `generate_asm_target`, shallowly embedded
in Lean.  Rust `Vec<char>` indexing that may panic (index out of bounds) is
modelled by `Except LexErr`; the generator, which never indexes out of
bounds, is a total function.  Machine integers (`i32 stack_offset`) are
modelled as `Int`; overflow is irrelevant at the scales the claims discuss.
-/

set_option maxRecDepth 10000

/-! ### Decimal rendering (models Rust `format!("{}", n)` for integers) -/

def digitChar (d : Nat) : Char :=
  match d with
  | 0 => '0' | 1 => '1' | 2 => '2' | 3 => '3' | 4 => '4'
  | 5 => '5' | 6 => '6' | 7 => '7' | 8 => '8' | 9 => '9'
  | _ => '*'

def charVal (c : Char) : Nat :=
  if c = '0' then 0 else if c = '1' then 1 else if c = '2' then 2
  else if c = '3' then 3 else if c = '4' then 4 else if c = '5' then 5
  else if c = '6' then 6 else if c = '7' then 7 else if c = '8' then 8
  else if c = '9' then 9 else 0

/-- Little-endian decimal digits of `n`; the fuel argument makes the
recursion structural (any fuel above `n` computes the digits). -/
def natDigitsRev : Nat → Nat → List Char
  | 0, _ => []
  | fuel+1, n =>
    if n < 10 then [digitChar n]
    else digitChar (n % 10) :: natDigitsRev fuel (n / 10)

def undigits : List Char → Nat
  | [] => 0
  | c :: cs => charVal c + 10 * undigits cs

/-- Decimal rendering of a natural number, as Rust's `Display` prints it. -/
def natRepr (n : Nat) : String := String.mk (natDigitsRev (n+1) n).reverse

/-- Decimal rendering of an integer, as Rust's `Display` for `i32`. -/
def intRepr (n : Int) : String :=
  if n < 0 then "-" ++ natRepr n.natAbs else natRepr n.toNat

/-! ### Tokens and the lexer (`tokenize`, src/main.rs lines 5–192) -/

inductive Token where
  | identifier (s : String)
  | operation (s : String)
  | stringLiteral (s : String)
  | symbol (c : Char)
  | char (c : Char)
  | number (s : String)
  | semiColon
  | parenOpen
  | parenClose
  | braceOpen
  | braceClose
  | squareOpen
  | squareClose
deriving DecidableEq, Repr

/-- An out-of-bounds `chars[i]` in the Rust source is a panic; we model it as
this error.  `fuelExhausted` is never produced when the lexer is run with the
fuel `tokenize` supplies. -/
inductive LexErr where
  | indexOutOfBounds
  | fuelExhausted
deriving DecidableEq, Repr

/-- `chars[i]` with the Rust panic made explicit. -/
def getC (cs : List Char) (i : Nat) : Except LexErr Char :=
  match cs[i]? with
  | some c => Except.ok c
  | none => Except.error LexErr.indexOutOfBounds

def quoteChar : Char := Char.ofNat 39

/-- The string-literal loop (lines 44–49).  Entered at the index one past the
opening quote; each step reads `chars[i]` (panicking at the end of input,
exactly as the source does) and stops at an unescaped closing quote,
returning the literal body and the index of the closing quote. -/
def strLoop (cs : List Char) : Nat → Nat → String → Except LexErr (String × Nat)
  | 0, _, _ => Except.error LexErr.fuelExhausted
  | fuel+1, i, acc =>
    match getC cs i with
    | Except.error e => Except.error e
    | Except.ok c =>
      if (c ≠ '"' ∨ cs.getD (i-1) ' ' = '\\') ∧ i < cs.length then
        strLoop cs fuel (i+1) (acc.push c)
      else Except.ok (acc, i)

/-- The `<...>` include scan (lines 62–70): bounds-checked in the source, so
total here.  Returns the accumulated text, the index reached, and whether a
closing `>` was found. -/
def incLoop (cs : List Char) : Nat → Nat → String → (String × Nat × Bool)
  | 0, i, acc => (acc, i, false)
  | fuel+1, i, acc =>
    match cs[i]? with
    | none => (acc, i, false)
    | some c =>
      if c = '>' then (acc.push c, i, true)
      else incLoop cs fuel (i+1) (acc.push c)

/-- The identifier loop (lines 166–170): reads `chars[i]` each step, so a
trailing identifier run panics at the end of input. -/
def idLoop (cs : List Char) : Nat → Nat → String → Except LexErr (String × Nat)
  | 0, _, _ => Except.error LexErr.fuelExhausted
  | fuel+1, i, acc =>
    match getC cs i with
    | Except.error e => Except.error e
    | Except.ok c =>
      if c.isAlpha ∨ c = '_' then idLoop cs fuel (i+1) (acc.push c)
      else Except.ok (acc, i)

/-- The number loop (lines 177–181); same trailing-run panic as `idLoop`. -/
def numLoop (cs : List Char) : Nat → Nat → String → Except LexErr (String × Nat)
  | 0, _, _ => Except.error LexErr.fuelExhausted
  | fuel+1, i, acc =>
    match getC cs i with
    | Except.error e => Except.error e
    | Except.ok c =>
      if c.isDigit then numLoop cs fuel (i+1) (acc.push c)
      else Except.ok (acc, i)

/-- One-token-at-a-time transcription of the `while i < chars.len()` loop of
`tokenize` (lines 29–189).  Rust's `is_alphabetic`/`is_whitespace` are
modelled on the ASCII range, which covers every input the claims mention.
The cursor advances by at least one position per step, so fuel
`cs.length + 1` always suffices. -/
def tokGo (cs : List Char) : Nat → Nat → List Token → Except LexErr (List Token)
  | 0, _, _ => Except.error LexErr.fuelExhausted
  | fuel+1, i, acc =>
    match cs[i]? with
    | none => Except.ok acc
    | some c =>
      if c = '(' then tokGo cs fuel (i+1) (acc ++ [Token.parenOpen])
      else if c = ')' then tokGo cs fuel (i+1) (acc ++ [Token.parenClose])
      else if c = Char.ofNat 123 then tokGo cs fuel (i+1) (acc ++ [Token.braceOpen])
      else if c = Char.ofNat 125 then tokGo cs fuel (i+1) (acc ++ [Token.braceClose])
      else if c = ';' then tokGo cs fuel (i+1) (acc ++ [Token.semiColon])
      else if c = '[' then tokGo cs fuel (i+1) (acc ++ [Token.squareOpen])
      else if c = ']' then tokGo cs fuel (i+1) (acc ++ [Token.squareClose])
      else if c = '"' then
        match strLoop cs (cs.length + 1) (i+1) "" with
        | Except.error e => Except.error e
        | Except.ok (s, j) => tokGo cs fuel (j+1) (acc ++ [Token.stringLiteral s])
      else if c = quoteChar then
        match getC cs (i+1) with
        | Except.error e => Except.error e
        | Except.ok c1 => tokGo cs fuel (i+2) (acc ++ [Token.char c1])
      else if c = '<' then
        match incLoop cs (cs.length + 1) (i+1) "<" with
        | (s, j, true) => tokGo cs fuel (j+1) (acc ++ [Token.identifier s])
        | (_, _, false) => tokGo cs fuel (i+1) (acc ++ [Token.operation "<"])
      else if c = '>' then
        match getC cs (i+1) with
        | Except.error e => Except.error e
        | Except.ok c1 =>
          -- `chars[i+1] != '=' || chars[i+1] != '>'` is always true,
          -- so the merged form below is dead code, kept for fidelity.
          if c1 ≠ '=' ∨ c1 ≠ '>' then tokGo cs fuel (i+1) (acc ++ [Token.operation ">"])
          else tokGo cs fuel (i+1) (acc ++ [Token.operation (String.mk ['>', c])])
      else if c = '-' then
        match getC cs (i+1) with
        | Except.error e => Except.error e
        | Except.ok c1 =>
          if c1 ≠ '=' ∧ c1 ≠ '>' ∧ c1 ≠ '-' then
            tokGo cs fuel (i+1) (acc ++ [Token.operation "-"])
          else tokGo cs fuel (i+2) (acc ++ [Token.operation (String.mk ['-', c1])])
      else if c = '+' then
        match getC cs (i+1) with
        | Except.error e => Except.error e
        | Except.ok c1 =>
          -- `chars[i+1] != '=' || chars[i+1] != '+'` is always true,
          -- so the merged form below is dead code, kept for fidelity.
          if c1 ≠ '=' ∨ c1 ≠ '+' then tokGo cs fuel (i+1) (acc ++ [Token.operation "+"])
          else tokGo cs fuel (i+2) (acc ++ [Token.operation (String.mk ['+', c1])])
      else if c = '*' then
        match getC cs (i+1) with
        | Except.error e => Except.error e
        | Except.ok c1 =>
          if c1 ≠ '=' then tokGo cs fuel (i+1) (acc ++ [Token.operation "*"])
          else tokGo cs fuel (i+2) (acc ++ [Token.operation "*="])
      else if c = '/' then
        match getC cs (i+1) with
        | Except.error e => Except.error e
        | Except.ok c1 =>
          -- the `/=` arm does not advance the cursor in the source
          if c1 ≠ '=' then tokGo cs fuel (i+1) (acc ++ [Token.operation "/"])
          else tokGo cs fuel (i+1) (acc ++ [Token.operation "/="])
      else if c = '=' then
        match getC cs (i+1) with
        | Except.error e => Except.error e
        | Except.ok c1 =>
          if c1 ≠ '=' then tokGo cs fuel (i+1) (acc ++ [Token.operation "="])
          else tokGo cs fuel (i+2) (acc ++ [Token.operation "=="])
      else if c = '!' then
        match getC cs (i+1) with
        | Except.error e => Except.error e
        | Except.ok c1 =>
          if c1 = '-' then
            match getC cs (i+2) with
            | Except.error e => Except.error e
            | Except.ok c2 =>
              -- `i += 3` plus the loop's `i += 1` skips one extra character
              if c2 = '>' then tokGo cs fuel (i+4) (acc ++ [Token.operation "!->"])
              else tokGo cs fuel (i+2) (acc ++ [Token.operation "!"])
          else if c1 ≠ '=' then tokGo cs fuel (i+2) (acc ++ [Token.operation "!"])
          else tokGo cs fuel (i+2) (acc ++ [Token.operation "!="])
      else if c = '&' then
        match getC cs (i+1) with
        | Except.error e => Except.error e
        | Except.ok c1 =>
          if c1 ≠ '&' then tokGo cs fuel (i+1) (acc ++ [Token.operation "&"])
          else tokGo cs fuel (i+2) (acc ++ [Token.operation "&&"])
      else if c = '|' then
        match getC cs (i+1) with
        | Except.error e => Except.error e
        | Except.ok c1 =>
          if c1 ≠ '|' then tokGo cs fuel (i+1) (acc ++ [Token.operation "|"])
          else tokGo cs fuel (i+2) (acc ++ [Token.operation "||"])
      else if c = ':' then
        match getC cs (i+1) with
        | Except.error e => Except.error e
        | Except.ok c1 =>
          -- a lone `:` produces no token at all in the source
          if c1 = '=' then tokGo cs fuel (i+2) (acc ++ [Token.operation ":="])
          else tokGo cs fuel (i+1) acc
      else if c.isWhitespace then tokGo cs fuel (i+1) acc
      else if c.isAlpha ∨ c = '_' then
        match idLoop cs (cs.length + 1) i "" with
        | Except.error e => Except.error e
        | Except.ok (s, j) => tokGo cs fuel j (acc ++ [Token.identifier s])
      else if c.isDigit then
        match numLoop cs (cs.length + 1) i "" with
        | Except.error e => Except.error e
        | Except.ok (s, j) => tokGo cs fuel j (acc ++ [Token.number s])
      else tokGo cs fuel (i+1) (acc ++ [Token.symbol c])

/-- `tokenize` (src/main.rs line 22): either the token list, or the lexing
error corresponding to the source's out-of-bounds panic. -/
def tokenize (s : String) : Except LexErr (List Token) :=
  tokGo s.data (s.data.length + 1) 0 []

/-! ### Generator state (`generate_asm_target`, src/main.rs lines 231–490) -/

inductive LabelKind where
  | loopStart
  | loopEnd
  | ifEnd
  | strData
deriving DecidableEq, Repr

/-- The text the source formats in front of the label counter. -/
def labelText : LabelKind → String
  | LabelKind.loopStart => ".loop_start"
  | LabelKind.loopEnd => ".loop_end"
  | LabelKind.ifEnd => ".if_end"
  | LabelKind.strData => ".str"

/-- `format!(".loop_start{}", n)` and friends. -/
def renderLabel (k : LabelKind) (n : Nat) : String := labelText k ++ natRepr n

/-- The generator's mutable locals.  `scopeBindings` and `labels` are ghost
observers: `scopeBindings` records each `(name, offset)` bound since the last
function-definition frame reset, in binding order, and `labels` records every
counter-derived label allocated, in allocation order.  Neither influences any
other field or the emitted text.  `vars` models the Rust `HashMap` by an
association list whose most recent insertion shadows earlier ones; the Rust
`Vec` stacks push/pop at the head here. -/
structure GenState where
  asm : String
  stackOffset : Int
  vars : List (String × Int)
  labelCounter : Nat
  loopStack : List (String × String)
  ifStack : List String
  scopeBindings : List (String × Int)
  labels : List (LabelKind × Nat)
deriving DecidableEq, Repr

def initState : GenState :=
  { asm := "", stackOffset := 0, vars := [], labelCounter := 0,
    loopStack := [], ifStack := [], scopeBindings := [], labels := [] }

/-- `var_stack_offsets.get(name)`. -/
def lookupVar : List (String × Int) → String → Option Int
  | [], _ => none
  | (k, v) :: rest, name => if k = name then some v else lookupVar rest name

/-- Transcription of lines 371–381: load the left operand of an arithmetic
operator into `rax` — from its frame slot if it is a bound variable, as an
immediate if it is a number, and not at all otherwise. -/
def primaryLoad (vars : List (String × Int)) (t : Token) : String :=
  match t with
  | Token.identifier id =>
    match lookupVar vars id with
    | some off => "    mov rax, [rbp" ++ intRepr off ++ "]\n"
    | none => ""
  | Token.number n => "    mov rax, " ++ n ++ "\n"
  | _ => ""

/-- Transcription of lines 383–389: load the right operand into `rbx`. -/
def secondaryLoad (vars : List (String × Int)) (t : Token) : String :=
  match t with
  | Token.identifier id =>
    match lookupVar vars id with
    | some off => "    mov rbx, [rbp" ++ intRepr off ++ "]\n"
    | none => ""
  | Token.number n => "    mov rbx, " ++ n ++ "\n"
  | _ => ""

/-- Lines 390–396: the arithmetic instruction text. -/
def arithInstr (op : String) : String :=
  if op = "+" then "add rax, rbx"
  else if op = "-" then "sub rax, rbx"
  else if op = "*" then "imul rax, rbx"
  else if op = "/" then "cqo\n    idiv rbx"
  else ""

/-- Lines 398–401: store the result back to the left operand's frame slot,
exactly when the left operand is a bound variable. -/
def writeBack (vars : List (String × Int)) (t : Token) : String :=
  match t with
  | Token.identifier id =>
    match lookupVar vars id with
    | some off => "    mov [rbp" ++ intRepr off ++ "], rax\n"
    | none => ""
  | _ => ""

/-- Lines 411–417: for a comparison, an operand is loaded only when it is a
bound variable (numbers are not loaded as immediates here). -/
def cmpLoadPrimary (vars : List (String × Int)) (t : Token) : String :=
  match t with
  | Token.identifier id =>
    match lookupVar vars id with
    | some off => "    mov rax, [rbp" ++ intRepr off ++ "]\n"
    | none => ""
  | _ => ""

/-- Lines 419–425: right-operand load for a comparison. -/
def cmpLoadSecondary (vars : List (String × Int)) (t : Token) : String :=
  match t with
  | Token.identifier id =>
    match lookupVar vars id with
    | some off => "    mov rbx, [rbp" ++ intRepr off ++ "]\n"
    | none => ""
  | _ => ""

/-- Lines 427–435: compare, set flag, zero-extend. -/
def cmpInstr (op : String) : String :=
  if op = "==" then "cmp rax, rbx\n    sete al\n    movzx rax, al"
  else if op = "!=" then "cmp rax, rbx\n    setne al\n    movzx rax, al"
  else if op = "<" then "cmp rax, rbx\n    setl al\n    movzx rax, al"
  else if op = ">" then "cmp rax, rbx\n    setg al\n    movzx rax, al"
  else if op = "<=" then "cmp rax, rbx\n    setle al\n    movzx rax, al"
  else if op = ">=" then "cmp rax, rbx\n    setge al\n    movzx rax, al"
  else ""

/-- Lines 353–357: bind the collected parameters in order, each consuming one
fresh frame slot. -/
def bindParams (reg : Int) : List String → GenState → GenState
  | [], st => st
  | arg :: rest, st =>
    let off := st.stackOffset - reg
    bindParams reg rest
      { st with
        stackOffset := off
        vars := (arg, off) :: st.vars
        scopeBindings := st.scopeBindings ++ [(arg, off)]
        asm := st.asm ++ "    ; arg " ++ arg ++ " at [rbp" ++ intRepr off ++ "]\n" }

/-- Lines 326–336: the `asm` escape scan, collecting identifier/number text
space-joined up to (not including) the next semicolon, and the index at which
the scan stopped. -/
def asmCollect (tokens : List Token) : Nat → Nat → String → (String × Nat)
  | 0, j, acc => (acc, j)
  | fuel+1, j, acc =>
    match tokens[j]? with
    | none => (acc, j)
    | some Token.semiColon => (acc, j)
    | some (Token.identifier s) => asmCollect tokens fuel (j+1) (acc ++ s ++ " ")
    | some (Token.number s) => asmCollect tokens fuel (j+1) (acc ++ s ++ " ")
    | some _ => asmCollect tokens fuel (j+1) acc

/-- Lines 344–349: collect the contiguous run of identifiers after a
candidate function name, returning the arguments and the stop index. -/
def scanArgs (tokens : List Token) : Nat → Nat → List String → (List String × Nat)
  | 0, j, acc => (acc, j)
  | fuel+1, j, acc =>
    match tokens[j]? with
    | some (Token.identifier arg) => scanArgs tokens fuel (j+1) (acc ++ [arg])
    | _ => (acc, j)

/-- The `while i < tokens.len()` loop of `generate_asm_target` (lines
243–487), one token-dispatch per step.  Every step advances the cursor by at
least one, so fuel `tokens.length + 1` always suffices; fuel exhaustion
returns the current state and is never reached from `genRun`. -/
def genGo (tokens : List Token) (reg : Int) : Nat → Nat → GenState → GenState
  | 0, _, st => st
  | fuel+1, i, st =>
    match tokens[i]? with
    | none => st
    | some (Token.identifier name) =>
      if name = "ret" then
        genGo tokens reg fuel (i+2)
          { st with asm := st.asm ++
              (match tokens[i+1]? with
               | some (Token.number n) => "    mov rax, " ++ n ++ "\n"
               | some (Token.identifier id) =>
                 match lookupVar st.vars id with
                 | some off => "    mov rax, [rbp" ++ intRepr off ++ "]\n"
                 | none => ""
               | _ => "") ++ "    leave\n    ret\n" }
      else if name = "mem" then
        match tokens[i+1]? with
        | some (Token.identifier var) =>
          match tokens[i+2]? with
          | some (Token.number n) =>
            genGo tokens reg fuel (i+3)
              { st with
                stackOffset := st.stackOffset - reg
                vars := (var, st.stackOffset - reg) :: st.vars
                scopeBindings := st.scopeBindings ++ [(var, st.stackOffset - reg)]
                asm := st.asm ++ "    mov rax, " ++ n ++
                  "\n    mov [rbp" ++ intRepr (st.stackOffset - reg) ++ "], rax\n" }
          | _ =>
            genGo tokens reg fuel (i+2)
              { st with
                stackOffset := st.stackOffset - reg
                vars := (var, st.stackOffset - reg) :: st.vars
                scopeBindings := st.scopeBindings ++ [(var, st.stackOffset - reg)] }
        | _ => genGo tokens reg fuel (i+1) st
      else if name = "ref" then
        match tokens[i+1]? with
        | some (Token.identifier var) =>
          genGo tokens reg fuel (i+2)
            { st with asm := st.asm ++
                (match lookupVar st.vars var with
                 | some off => "    mov rax, [rbp" ++ intRepr off ++ "]\n"
                 | none => "") }
        | _ => genGo tokens reg fuel (i+1) st
      else if name = "loop" then
        genGo tokens reg fuel (i+1)
          { st with
            labelCounter := st.labelCounter + 1
            loopStack := (renderLabel LabelKind.loopStart st.labelCounter,
              renderLabel LabelKind.loopEnd st.labelCounter) :: st.loopStack
            labels := st.labels ++
              [(LabelKind.loopStart, st.labelCounter), (LabelKind.loopEnd, st.labelCounter)]
            asm := st.asm ++ renderLabel LabelKind.loopStart st.labelCounter ++ ":\n" }
      else if name = "brk" then
        match st.loopStack with
        | (_, endLabel) :: _ =>
          genGo tokens reg fuel (i+1) { st with asm := st.asm ++ "    jmp " ++ endLabel ++ "\n" }
        | [] => genGo tokens reg fuel (i+1) st
      else if name = "jump" then
        match tokens[i+1]? with
        | some (Token.identifier label) =>
          genGo tokens reg fuel (i+2) { st with asm := st.asm ++ "    jmp " ++ label ++ "\n" }
        | _ => genGo tokens reg fuel (i+1) st
      else if name = "imp" then
        match tokens[i+1]? with
        | some (Token.identifier path) =>
          genGo tokens reg fuel (i+2) { st with asm := st.asm ++ "    ; import " ++ path ++ "\n" }
        | _ => genGo tokens reg fuel (i+1) st
      else if name = "asm" then
        genGo tokens reg fuel ((asmCollect tokens (tokens.length + 1) (i+1) "").2 + 1)
          { st with asm := st.asm ++ (asmCollect tokens (tokens.length + 1) (i+1) "").1 ++ "\n" }
      else
        match tokens[(scanArgs tokens (tokens.length + 1) (i+1) []).2]? with
        | some Token.braceOpen =>
          genGo tokens reg fuel ((scanArgs tokens (tokens.length + 1) (i+1) []).2 + 1)
            (bindParams reg (scanArgs tokens (tokens.length + 1) (i+1) []).1
              { st with
                asm := st.asm ++ name ++ ":\n    push rbp\n    mov rbp, rsp\n"
                stackOffset := 0
                scopeBindings := [] })
        | _ => genGo tokens reg fuel (i+1) st
    | some (Token.operation op) =>
      if op = "+" ∨ op = "-" ∨ op = "*" ∨ op = "/" then
        if 0 < i ∧ i + 1 < tokens.length then
          genGo tokens reg fuel (i+2)
            { st with asm := st.asm ++
                primaryLoad st.vars (tokens.getD (i-1) Token.semiColon) ++
                secondaryLoad st.vars (tokens.getD (i+1) Token.semiColon) ++
                "    " ++ arithInstr op ++ "\n" ++
                writeBack st.vars (tokens.getD (i-1) Token.semiColon) }
        else genGo tokens reg fuel (i+1) st
      else if op = "==" ∨ op = "!=" ∨ op = "<" ∨ op = ">" ∨ op = "<=" ∨ op = ">=" then
        if 0 < i ∧ i + 1 < tokens.length then
          genGo tokens reg fuel (i+2)
            { st with asm := st.asm ++
                cmpLoadPrimary st.vars (tokens.getD (i-1) Token.semiColon) ++
                cmpLoadSecondary st.vars (tokens.getD (i+1) Token.semiColon) ++
                "    " ++ cmpInstr op ++ "\n" }
        else genGo tokens reg fuel (i+1) st
      else if op = "->" then
        genGo tokens reg fuel (i+1)
          { st with
            labelCounter := st.labelCounter + 1
            ifStack := renderLabel LabelKind.ifEnd st.labelCounter :: st.ifStack
            labels := st.labels ++ [(LabelKind.ifEnd, st.labelCounter)]
            asm := st.asm ++ "    cmp rax, 0\n    je " ++
              renderLabel LabelKind.ifEnd st.labelCounter ++ "\n" }
      else if op = "!->" then
        match st.ifStack with
        | endLabel :: rest =>
          genGo tokens reg fuel (i+1)
            { st with ifStack := rest, asm := st.asm ++ "    jmp " ++ endLabel ++ "\n" }
        | [] => genGo tokens reg fuel (i+1) st
      else genGo tokens reg fuel (i+1) st
    | some Token.braceClose =>
      genGo tokens reg fuel (i+1)
        (match st.loopStack, st.ifStack with
         | (_, el) :: lrest, ei :: irest =>
           { st with
             loopStack := lrest
             ifStack := irest
             asm := st.asm ++ el ++ ":\n" ++ ei ++ ":\n" }
         | (_, el) :: lrest, [] =>
           { st with loopStack := lrest, asm := st.asm ++ el ++ ":\n" }
         | [], ei :: irest =>
           { st with ifStack := irest, asm := st.asm ++ ei ++ ":\n" }
         | [], [] => st)
    | some (Token.number n) =>
      genGo tokens reg fuel (i+1) { st with asm := st.asm ++ "    mov rax, " ++ n ++ "\n" }
    | some (Token.stringLiteral s) =>
      genGo tokens reg fuel (i+1)
        { st with
          labelCounter := st.labelCounter + 1
          labels := st.labels ++ [(LabelKind.strData, st.labelCounter)]
          asm := st.asm ++ renderLabel LabelKind.strData st.labelCounter ++ ": db " ++
            String.singleton quoteChar ++ s ++ String.singleton quoteChar ++ ", 0\n" }
    | some _ => genGo tokens reg fuel (i+1) st

def genRun (tokens : List Token) (double : Bool) : GenState :=
  genGo tokens (if double then 8 else 4) (tokens.length + 1) 0 initState

/-- `generate_asm_target(tokens, double)`. -/
def generateAsmTarget (tokens : List Token) (double : Bool) : String :=
  (genRun tokens double).asm



/-- Decidable equality of lexer results, for evaluating the lexer on
concrete inputs. -/
instance {e a : Type} [DecidableEq e] [DecidableEq a] : DecidableEq (Except e a) :=
  fun x y =>
    match x, y with
    | Except.ok u, Except.ok v =>
      if h : u = v then isTrue (congrArg Except.ok h)
      else isFalse (fun hh => h (by cases hh; rfl))
    | Except.error u, Except.error v =>
      if h : u = v then isTrue (congrArg Except.error h)
      else isFalse (fun hh => h (by cases hh; rfl))
    | Except.ok _, Except.error _ => isFalse (fun hh => Except.noConfusion hh)
    | Except.error _, Except.ok _ => isFalse (fun hh => Except.noConfusion hh)

/-! ### Concrete fixtures used by the claim theorems -/

/-- The state the generator enters a function definition with (header emitted,
running offset reset to 0, fresh ghost scope), before the parameters are
bound; `genGo`'s function-definition branch is definitionally
`bindParams reg args (fnEntryState st name)`. -/
def fnEntryState (st : GenState) (name : String) : GenState :=
  { st with
    asm := st.asm ++ name ++ ":\n    push rbp\n    mov rbp, rsp\n"
    stackOffset := 0
    scopeBindings := [] }

/-- The source text of spec Example 3. -/
def c2Source : String := "a == b -> \x7b ret 1; \x7d !-> \x7b ret 0; \x7d"

/-- The token sequence of spec Example 3. -/
def c2Tokens : List Token :=
  [Token.identifier "a", Token.operation "==", Token.identifier "b", Token.operation "->",
   Token.braceOpen, Token.identifier "ret", Token.number "1", Token.semiColon,
   Token.braceClose, Token.operation "!->", Token.braceOpen, Token.identifier "ret",
   Token.number "0", Token.semiColon, Token.braceClose]

/-- What the generator actually emits for spec Example 3 in 8-byte mode. -/
def c2Output : String :=
  "    cmp rax, rbx\n    sete al\n    movzx rax, al\n    cmp rax, 0\n    je .if_end0\n" ++
  "    mov rax, 1\n    leave\n    ret\n.if_end0:\n    mov rax, 0\n    leave\n    ret\n"

/-- Two `mem` declarations of the same name `x`. -/
def c4RebindTokens : List Token :=
  [Token.identifier "mem", Token.identifier "x", Token.number "1",
   Token.identifier "mem", Token.identifier "x", Token.number "2"]

/-- The token sequence of spec Example 1: `f a b \x7b mem x 5; ret x; \x7d`. -/
def c4ExampleTokens : List Token :=
  [Token.identifier "f", Token.identifier "a", Token.identifier "b", Token.braceOpen,
   Token.identifier "mem", Token.identifier "x", Token.number "5", Token.semiColon,
   Token.identifier "ret", Token.identifier "x", Token.semiColon, Token.braceClose]

/-- The 8-byte-mode output for spec Example 1. -/
def c4ExampleOutput : String :=
  "f:\n    push rbp\n    mov rbp, rsp\n    ; arg a at [rbp-8]\n    ; arg b at [rbp-16]\n" ++
  "    mov rax, 5\n    mov [rbp-24], rax\n    mov rax, [rbp-24]\n    leave\n    ret\n"

/-- A function definition head `f a b \x7b`. -/
def c7Tokens : List Token :=
  [Token.identifier "f", Token.identifier "a", Token.identifier "b", Token.braceOpen]

/-- `mem x 5;` — allocates one frame slot. -/
def c9MemTokens : List Token :=
  [Token.identifier "mem", Token.identifier "x", Token.number "5", Token.semiColon]

/-- `f a b \x7b mem x 5; \x7d` — exercises parameter slots and a `mem` slot. -/
def c9FnTokens : List Token :=
  [Token.identifier "f", Token.identifier "a", Token.identifier "b", Token.braceOpen,
   Token.identifier "mem", Token.identifier "x", Token.number "5", Token.semiColon,
   Token.braceClose]


/-! ### Mode comparison: outputs agree outside digit characters -/

/-- Characters that are not decimal digits.  The word-size flag can only
influence the emitted text through frame offsets, whose decimal digits are
the only characters that may differ between the two modes. -/
def nonDigit (c : Char) : Bool := ! c.isDigit

/-- Two assembly texts that agree after erasing digit characters: same
mnemonics, same register names, same labels and separators — they can differ
only in embedded decimal numbers. -/
def asmEqv (s t : String) : Prop := s.data.filter nonDigit = t.data.filter nonDigit

/-- Simulation relation between a 4-byte-mode generator state and an
8-byte-mode state at the same cursor: the emitted texts agree outside
digits, the offset tables bind the same names (to negative offsets), the
running offsets are non-positive, and the label counter and both control
stacks coincide exactly. -/
def SimSt (st st' : GenState) : Prop :=
  asmEqv st.asm st'.asm ∧
  st.vars.map Prod.fst = st'.vars.map Prod.fst ∧
  (∀ p ∈ st.vars, p.2 < 0) ∧
  (∀ p ∈ st'.vars, p.2 < 0) ∧
  st.stackOffset ≤ 0 ∧
  st'.stackOffset ≤ 0 ∧
  st.labelCounter = st'.labelCounter ∧
  st.loopStack = st'.loopStack ∧
  st.ifStack = st'.ifStack

/-! ### Decimal rendering is injective -/

theorem charVal_digitChar (d : Nat) (h : d < 10) : charVal (digitChar d) = d := by
  interval_cases d <;> rfl

theorem undigits_natDigitsRev : ∀ fuel n, n < fuel → undigits (natDigitsRev fuel n) = n := by
  intro fuel
  induction fuel with
  | zero => intro n h; omega
  | succ f ih =>
    intro n h
    unfold natDigitsRev
    by_cases h10 : n < 10
    · rw [if_pos h10]
      simp [undigits, charVal_digitChar n h10]
    · rw [if_neg h10]
      have hdiv : n / 10 < n := Nat.div_lt_self (by omega) (by omega)
      simp only [undigits]
      rw [ih (n / 10) (by omega), charVal_digitChar _ (Nat.mod_lt n (by omega))]
      exact Nat.mod_add_div n 10

theorem natRepr_injective {m n : Nat} (h : natRepr m = natRepr n) : m = n := by
  have hdata : (natDigitsRev (m+1) m).reverse = (natDigitsRev (n+1) n).reverse :=
    congrArg String.data h
  have hl : natDigitsRev (m+1) m = natDigitsRev (n+1) n := by
    have := congrArg List.reverse hdata
    simpa using this
  have h1 := undigits_natDigitsRev (m+1) m (by omega)
  have h2 := undigits_natDigitsRev (n+1) n (by omega)
  rw [← h1, ← h2, hl]

theorem listAppendNe {p q x y : List Char} {k : Nat} (hk : k < p.length)
    (hk2 : k < q.length) (hne : p[k]? ≠ q[k]?) : p ++ x ≠ q ++ y := by
  intro h
  apply hne
  have h1 : (p ++ x)[k]? = p[k]? := by rw [List.getElem?_append]; simp [hk]
  have h2 : (q ++ y)[k]? = q[k]? := by rw [List.getElem?_append]; simp [hk2]
  rw [← h1, ← h2, h]

theorem renderLabel_injective {k k' : LabelKind} {n n' : Nat}
    (h : renderLabel k n = renderLabel k' n') : k = k' ∧ n = n' := by
  have hd : (labelText k).data ++ (natRepr n).data =
      (labelText k').data ++ (natRepr n').data := by
    have := congrArg String.data h
    simpa [renderLabel, String.data_append] using this
  cases k <;> cases k' <;>
    first
    | exact absurd hd (listAppendNe (k := 1) (by decide) (by decide) (by decide))
    | exact absurd hd (listAppendNe (k := 6) (by decide) (by decide) (by decide))
    | exact ⟨rfl, natRepr_injective (congrArg String.mk (List.append_cancel_left hd))⟩

/-! ### Parameter binding lemmas -/

theorem bindParams_stackOffset (reg : Int) :
    ∀ (args : List String) (st : GenState),
      (bindParams reg args st).stackOffset = st.stackOffset - reg * args.length := by
  intro args
  induction args with
  | nil => intro st; simp [bindParams]
  | cons a rest ih =>
    intro st
    simp only [bindParams, ih, List.length_cons]
    push_cast
    ring

theorem bindParams_labels (reg : Int) :
    ∀ (args : List String) (st : GenState),
      (bindParams reg args st).labels = st.labels ∧
      (bindParams reg args st).labelCounter = st.labelCounter := by
  intro args
  induction args with
  | nil => intro st; exact ⟨rfl, rfl⟩
  | cons a rest ih => intro st; exact ih _

theorem bindParams_lookup_of_notMem (reg : Int) :
    ∀ (args : List String) (st : GenState) (v : String), v ∉ args →
      lookupVar (bindParams reg args st).vars v = lookupVar st.vars v := by
  intro args
  induction args with
  | nil => intro st v _; rfl
  | cons a rest ih =>
    intro st v hv
    have hva : a ≠ v := by
      intro h
      exact hv (h ▸ List.mem_cons_self a rest)
    have hvr : v ∉ rest := fun h => hv (List.mem_cons_of_mem a h)
    rw [bindParams, ih _ v hvr]
    show lookupVar ((a, st.stackOffset - reg) :: st.vars) v = lookupVar st.vars v
    rw [lookupVar, if_neg hva]

theorem bindParams_lookup_nth (reg : Int) :
    ∀ (args : List String) (st : GenState), args.Nodup →
      ∀ k (hk : k < args.length),
        lookupVar (bindParams reg args st).vars args[k] =
          some (st.stackOffset - reg * (k + 1)) := by
  intro args
  induction args with
  | nil => intro st _ k hk; simp at hk
  | cons a rest ih =>
    intro st hnd k hk
    have hna : a ∉ rest := (List.nodup_cons.mp hnd).1
    have hnr : rest.Nodup := (List.nodup_cons.mp hnd).2
    cases k with
    | zero =>
      rw [bindParams]
      show lookupVar (bindParams reg rest _).vars a = _
      rw [bindParams_lookup_of_notMem reg rest _ a hna]
      show (if a = a then some (st.stackOffset - reg) else lookupVar st.vars a) = _
      rw [if_pos rfl]
      congr 1
      push_cast
      ring
    | succ k =>
      have hk2 : k < rest.length := by simpa using hk
      rw [bindParams]
      simp only [List.getElem_cons_succ]
      rw [ih _ hnr k hk2]
      congr 1
      push_cast
      ring

/-! ### The run-wide generator invariant -/

/-- Invariant of the frame bindings recorded since the last frame reset: the
running offset is a lower bound for every recorded slot, and each later
binding sits strictly below every earlier one. -/
def BindInv (off : Int) (sb : List (String × Int)) : Prop :=
  (∀ p ∈ sb, off ≤ p.2) ∧ sb.Pairwise (fun a b => b.2 < a.2)

/-- Invariant of the allocated labels: every recorded label was cut from a
counter value below the current one, and the recorded (kind, counter) pairs
are pairwise distinct. -/
def LabelInv (c : Nat) (lbs : List (LabelKind × Nat)) : Prop :=
  (∀ q ∈ lbs, q.2 < c) ∧ lbs.Pairwise (fun a b => a ≠ b)

def StateInv (st : GenState) : Prop :=
  BindInv st.stackOffset st.scopeBindings ∧ LabelInv st.labelCounter st.labels

theorem bindInv_nil : BindInv 0 [] := ⟨by simp, by simp⟩

theorem bindInv_extend {off : Int} {sb : List (String × Int)} {reg : Int}
    (hreg : 0 < reg) (h : BindInv off sb) (v : String) :
    BindInv (off - reg) (sb ++ [(v, off - reg)]) := by
  obtain ⟨h1, h2⟩ := h
  constructor
  · intro p hp
    rcases List.mem_append.mp hp with hl | hr
    · have := h1 p hl; omega
    · simp at hr; rw [hr]
  · rw [List.pairwise_append]
    refine ⟨h2, by simp, ?_⟩
    intro a ha b hb
    simp at hb
    rw [hb]
    have := h1 a ha
    simp only
    omega

theorem labelInv_extend1 {c : Nat} {lbs : List (LabelKind × Nat)}
    (h : LabelInv c lbs) (k : LabelKind) : LabelInv (c+1) (lbs ++ [(k, c)]) := by
  obtain ⟨h1, h2⟩ := h
  constructor
  · intro q hq
    rcases List.mem_append.mp hq with hl | hr
    · have := h1 q hl; omega
    · simp at hr; rw [hr]; omega
  · rw [List.pairwise_append]
    refine ⟨h2, by simp, ?_⟩
    intro a ha b hb hab
    simp at hb
    have := h1 a ha
    rw [hab, hb] at this
    omega

theorem labelInv_extend2 {c : Nat} {lbs : List (LabelKind × Nat)}
    (h : LabelInv c lbs) {k k' : LabelKind} (hkk : k ≠ k') :
    LabelInv (c+1) (lbs ++ [(k, c), (k', c)]) := by
  obtain ⟨h1, h2⟩ := h
  constructor
  · intro q hq
    rcases List.mem_append.mp hq with hl | hr
    · have := h1 q hl; omega
    · simp only [List.mem_cons, List.mem_singleton] at hr
      rcases hr with hr | hr | hr
      · rw [hr]; omega
      · rw [hr]; omega
      · simp at hr
  · rw [List.pairwise_append]
    refine ⟨h2, ?_, ?_⟩
    · refine List.pairwise_cons.mpr ⟨?_, by simp⟩
      intro b hb
      simp at hb
      rw [hb]
      intro hc
      exact hkk (congrArg Prod.fst hc)
    · intro a ha b hb hab
      have h1a := h1 a ha
      simp only [List.mem_cons, List.mem_singleton] at hb
      rcases hb with hb | hb | hb
      · rw [hab, hb] at h1a; omega
      · rw [hab, hb] at h1a; omega
      · simp at hb

theorem bindParams_inv {reg : Int} (hreg : 0 < reg) :
    ∀ (args : List String) (st : GenState), StateInv st →
      StateInv (bindParams reg args st) := by
  intro args
  induction args with
  | nil => intro st h; exact h
  | cons a rest ih =>
    intro st h
    exact ih _ ⟨bindInv_extend hreg h.1 a, h.2⟩

theorem genGo_inv (tokens : List Token) {reg : Int} (hreg : 0 < reg) :
    ∀ fuel i st, StateInv st → StateInv (genGo tokens reg fuel i st) := by
  intro fuel
  induction fuel with
  | zero => intro i st h; exact h
  | succ fuel ih =>
    intro i st h
    rw [genGo]
    split
    · exact h
    all_goals
      repeat'
        first
        | exact ih _ _ h
        | exact ih _ _ ⟨bindInv_extend hreg h.1 _, h.2⟩
        | exact ih _ _ ⟨h.1, labelInv_extend1 h.2 _⟩
        | exact ih _ _ ⟨h.1, labelInv_extend2 h.2 (by decide)⟩
        | exact ih _ _ (bindParams_inv hreg _ _ ⟨bindInv_nil, h.2⟩)
        | split

theorem labelInv_nil : LabelInv 0 [] := ⟨by simp, by simp⟩

theorem stateInv_init : StateInv initState := ⟨bindInv_nil, labelInv_nil⟩

theorem regSize_pos (double : Bool) : (0 : Int) < (if double then 8 else 4) := by
  cases double <;> norm_num

theorem store_line_ne_empty (off : Int) :
    "    mov [rbp" ++ intRepr off ++ "], rax\n" ≠ "" := by
  intro h
  have hlen := congrArg String.length h
  rw [String.length_append, String.length_append] at hlen
  have h1 : "    mov [rbp".length = 12 := by decide
  have h2 : "], rax\n".length = 7 := by decide
  have h3 : "".length = 0 := by decide
  omega

theorem asmEqv_refl (s : String) : asmEqv s s := rfl

theorem asmEqv_append {s t u v : String} (h1 : asmEqv s u) (h2 : asmEqv t v) :
    asmEqv (s ++ t) (u ++ v) := by
  unfold asmEqv at *
  rw [String.data_append, String.data_append, List.filter_append, List.filter_append, h1, h2]

theorem digitChar_isDigit (d : Nat) (h : d < 10) : (digitChar d).isDigit := by
  interval_cases d <;> decide

theorem natDigitsRev_digits : ∀ fuel n c, c ∈ natDigitsRev fuel n → c.isDigit := by
  intro fuel
  induction fuel with
  | zero => intro n c hc; simp [natDigitsRev] at hc
  | succ f ih =>
    intro n c hc
    unfold natDigitsRev at hc
    by_cases h10 : n < 10
    · rw [if_pos h10] at hc
      simp at hc
      rw [hc]
      exact digitChar_isDigit n h10
    · rw [if_neg h10] at hc
      rcases List.mem_cons.mp hc with hc | hc
      · rw [hc]
        exact digitChar_isDigit _ (Nat.mod_lt n (by omega))
      · exact ih _ _ hc

theorem natRepr_filter (n : Nat) : (natRepr n).data.filter nonDigit = [] := by
  rw [List.filter_eq_nil_iff]
  intro c hc
  have hcm : c ∈ natDigitsRev (n+1) n := List.mem_reverse.mp hc
  simp [nonDigit, natDigitsRev_digits _ _ _ hcm]

theorem asmEqv_intRepr {o o2 : Int} (ho : o < 0) (ho2 : o2 < 0) :
    asmEqv (intRepr o) (intRepr o2) := by
  unfold asmEqv intRepr
  rw [if_pos ho, if_pos ho2]
  rw [String.data_append, String.data_append, List.filter_append, List.filter_append,
    natRepr_filter, natRepr_filter]

theorem lookupVar_none_iff {v1 v2 : List (String × Int)}
    (hk : v1.map Prod.fst = v2.map Prod.fst) (x : String) :
    lookupVar v1 x = none ↔ lookupVar v2 x = none := by
  induction v1 generalizing v2 with
  | nil =>
    cases v2 with
    | nil => simp
    | cons b bs => simp at hk
  | cons a as ih =>
    cases v2 with
    | nil => simp at hk
    | cons b bs =>
      obtain ⟨ak, av⟩ := a
      obtain ⟨bk, bv⟩ := b
      simp only [List.map_cons, List.cons.injEq] at hk
      obtain ⟨hab, hk2⟩ := hk
      rw [lookupVar, lookupVar, hab]
      by_cases hx : bk = x
      · simp [hx]
      · rw [if_neg hx, if_neg hx]
        exact ih hk2

theorem lookupVar_neg {v : List (String × Int)} (hn : ∀ p ∈ v, p.2 < 0)
    {x : String} {o : Int} (h : lookupVar v x = some o) : o < 0 := by
  induction v with
  | nil => simp [lookupVar] at h
  | cons a as ih =>
    obtain ⟨ak, av⟩ := a
    rw [lookupVar] at h
    by_cases hx : ak = x
    · rw [if_pos hx] at h
      have := hn (ak, av) (List.mem_cons_self _ _)
      simp at h
      omega
    · rw [if_neg hx] at h
      exact ih (fun p hp => hn p (List.mem_cons_of_mem _ hp)) h

theorem keysCons {v1 v2 : List (String × Int)} (hk : v1.map Prod.fst = v2.map Prod.fst)
    (x : String) (o o2 : Int) :
    ((x, o) :: v1).map Prod.fst = ((x, o2) :: v2).map Prod.fst := by
  simp only [List.map_cons]
  rw [hk]

theorem negCons {v : List (String × Int)} {x : String} {o : Int} (ho : o < 0)
    (h : ∀ p ∈ v, p.2 < 0) : ∀ p ∈ (x, o) :: v, p.2 < 0 := by
  intro p hp
  rcases List.mem_cons.mp hp with rfl | hp
  · exact ho
  · exact h p hp

theorem asmEqv_primaryLoad {v1 v2 : List (String × Int)}
    (hk : v1.map Prod.fst = v2.map Prod.fst)
    (hn : ∀ p ∈ v1, p.2 < 0) (hn2 : ∀ p ∈ v2, p.2 < 0) (t : Token) :
    asmEqv (primaryLoad v1 t) (primaryLoad v2 t) := by
  cases t
  case identifier id =>
    simp only [primaryLoad]
    cases hl : lookupVar v1 id with
    | none =>
      rw [(lookupVar_none_iff hk id).mp hl]
      exact asmEqv_refl ""
    | some o =>
      cases hl2 : lookupVar v2 id with
      | none =>
        have hx := (lookupVar_none_iff hk id).mpr hl2
        rw [hl] at hx
        exact absurd hx (by simp)
      | some o2 =>
        exact asmEqv_append (asmEqv_append (asmEqv_refl "    mov rax, [rbp")
          (asmEqv_intRepr (lookupVar_neg hn hl) (lookupVar_neg hn2 hl2))) (asmEqv_refl "]\n")
  all_goals exact asmEqv_refl _

theorem asmEqv_secondaryLoad {v1 v2 : List (String × Int)}
    (hk : v1.map Prod.fst = v2.map Prod.fst)
    (hn : ∀ p ∈ v1, p.2 < 0) (hn2 : ∀ p ∈ v2, p.2 < 0) (t : Token) :
    asmEqv (secondaryLoad v1 t) (secondaryLoad v2 t) := by
  cases t
  case identifier id =>
    simp only [secondaryLoad]
    cases hl : lookupVar v1 id with
    | none =>
      rw [(lookupVar_none_iff hk id).mp hl]
      exact asmEqv_refl ""
    | some o =>
      cases hl2 : lookupVar v2 id with
      | none =>
        have hx := (lookupVar_none_iff hk id).mpr hl2
        rw [hl] at hx
        exact absurd hx (by simp)
      | some o2 =>
        exact asmEqv_append (asmEqv_append (asmEqv_refl "    mov rbx, [rbp")
          (asmEqv_intRepr (lookupVar_neg hn hl) (lookupVar_neg hn2 hl2))) (asmEqv_refl "]\n")
  all_goals exact asmEqv_refl _

theorem asmEqv_writeBack {v1 v2 : List (String × Int)}
    (hk : v1.map Prod.fst = v2.map Prod.fst)
    (hn : ∀ p ∈ v1, p.2 < 0) (hn2 : ∀ p ∈ v2, p.2 < 0) (t : Token) :
    asmEqv (writeBack v1 t) (writeBack v2 t) := by
  cases t
  case identifier id =>
    simp only [writeBack]
    cases hl : lookupVar v1 id with
    | none =>
      rw [(lookupVar_none_iff hk id).mp hl]
      exact asmEqv_refl ""
    | some o =>
      cases hl2 : lookupVar v2 id with
      | none =>
        have hx := (lookupVar_none_iff hk id).mpr hl2
        rw [hl] at hx
        exact absurd hx (by simp)
      | some o2 =>
        exact asmEqv_append (asmEqv_append (asmEqv_refl "    mov [rbp")
          (asmEqv_intRepr (lookupVar_neg hn hl) (lookupVar_neg hn2 hl2))) (asmEqv_refl "], rax\n")
  all_goals exact asmEqv_refl _

theorem asmEqv_cmpLoadPrimary {v1 v2 : List (String × Int)}
    (hk : v1.map Prod.fst = v2.map Prod.fst)
    (hn : ∀ p ∈ v1, p.2 < 0) (hn2 : ∀ p ∈ v2, p.2 < 0) (t : Token) :
    asmEqv (cmpLoadPrimary v1 t) (cmpLoadPrimary v2 t) := by
  cases t
  case identifier id =>
    simp only [cmpLoadPrimary]
    cases hl : lookupVar v1 id with
    | none =>
      rw [(lookupVar_none_iff hk id).mp hl]
      exact asmEqv_refl ""
    | some o =>
      cases hl2 : lookupVar v2 id with
      | none =>
        have hx := (lookupVar_none_iff hk id).mpr hl2
        rw [hl] at hx
        exact absurd hx (by simp)
      | some o2 =>
        exact asmEqv_append (asmEqv_append (asmEqv_refl "    mov rax, [rbp")
          (asmEqv_intRepr (lookupVar_neg hn hl) (lookupVar_neg hn2 hl2))) (asmEqv_refl "]\n")
  all_goals exact asmEqv_refl _

theorem asmEqv_cmpLoadSecondary {v1 v2 : List (String × Int)}
    (hk : v1.map Prod.fst = v2.map Prod.fst)
    (hn : ∀ p ∈ v1, p.2 < 0) (hn2 : ∀ p ∈ v2, p.2 < 0) (t : Token) :
    asmEqv (cmpLoadSecondary v1 t) (cmpLoadSecondary v2 t) := by
  cases t
  case identifier id =>
    simp only [cmpLoadSecondary]
    cases hl : lookupVar v1 id with
    | none =>
      rw [(lookupVar_none_iff hk id).mp hl]
      exact asmEqv_refl ""
    | some o =>
      cases hl2 : lookupVar v2 id with
      | none =>
        have hx := (lookupVar_none_iff hk id).mpr hl2
        rw [hl] at hx
        exact absurd hx (by simp)
      | some o2 =>
        exact asmEqv_append (asmEqv_append (asmEqv_refl "    mov rbx, [rbp")
          (asmEqv_intRepr (lookupVar_neg hn hl) (lookupVar_neg hn2 hl2))) (asmEqv_refl "]\n")
  all_goals exact asmEqv_refl _

theorem bindParams_sim {reg reg2 : Int} (hreg : 0 < reg) (hreg2 : 0 < reg2) :
    ∀ (args : List String) (st st2 : GenState), SimSt st st2 →
      SimSt (bindParams reg args st) (bindParams reg2 args st2) := by
  intro args
  induction args with
  | nil => intro st st2 h; exact h
  | cons a rest ih =>
    intro st st2 h
    obtain ⟨hasm, hkeys, hneg, hneg2, hso, hso2, hctr, hloop, hif⟩ := h
    rw [bindParams, bindParams]
    apply ih
    have ho : st.stackOffset - reg < 0 := by omega
    have ho2 : st2.stackOffset - reg2 < 0 := by omega
    exact ⟨asmEqv_append (asmEqv_append (asmEqv_append (asmEqv_append (asmEqv_append hasm
        (asmEqv_refl _)) (asmEqv_refl _)) (asmEqv_refl _)) (asmEqv_intRepr ho ho2))
        (asmEqv_refl _),
      keysCons hkeys a _ _, negCons ho hneg, negCons ho2 hneg2,
      le_of_lt ho, le_of_lt ho2, hctr, hloop, hif⟩
theorem genGo_sim (tokens : List Token) {reg reg2 : Int} (hreg : 0 < reg)
    (hreg2 : 0 < reg2) :
    ∀ fuel i st st2, SimSt st st2 →
      SimSt (genGo tokens reg fuel i st) (genGo tokens reg2 fuel i st2) := by
  intro fuel
  induction fuel with
  | zero => intro i st st2 h; exact h
  | succ fuel ih =>
    intro i st st2 h
    obtain ⟨hasm, hkeys, hneg, hneg2, hso, hso2, hctr, hloop, hif⟩ := h
    have packAll : SimSt st st2 := ⟨hasm, hkeys, hneg, hneg2, hso, hso2, hctr, hloop, hif⟩
    simp only [genGo]
    rw [hctr, hloop, hif]
    cases htok : tokens[i]? with
    | none => exact packAll
    | some tok =>
      cases tok with
      | identifier name =>
        dsimp only
        by_cases h1 : name = "ret"
        · rw [if_pos h1, if_pos h1]
          apply ih
          refine ⟨?_, hkeys, hneg, hneg2, hso, hso2, rfl, rfl, rfl⟩
          refine asmEqv_append (asmEqv_append hasm ?_) (asmEqv_refl _)
          cases htok2 : tokens[i+1]? with
          | none => exact asmEqv_refl ""
          | some t2 =>
            cases t2 <;>
              first
              | (rename_i id
                 dsimp only
                 cases hl : lookupVar st.vars id with
                 | none =>
                   rw [(lookupVar_none_iff hkeys id).mp hl]
                   exact asmEqv_refl ""
                 | some o =>
                   cases hl2 : lookupVar st2.vars id with
                   | none =>
                     have hx := (lookupVar_none_iff hkeys id).mpr hl2
                     rw [hl] at hx
                     exact absurd hx (by simp)
                   | some o2 =>
                     exact asmEqv_append (asmEqv_append (asmEqv_refl _)
                       (asmEqv_intRepr (lookupVar_neg hneg hl)
                         (lookupVar_neg hneg2 hl2))) (asmEqv_refl _))
              | exact asmEqv_refl _
        · rw [if_neg h1, if_neg h1]
          by_cases h2 : name = "mem"
          · rw [if_pos h2, if_pos h2]
            cases htok2 : tokens[i+1]? with
            | none => exact ih _ _ _ packAll
            | some t2 =>
              cases t2 <;>
                first
                | (rename_i var
                   dsimp only
                   have ho : st.stackOffset - reg < 0 := by omega
                   have ho2 : st2.stackOffset - reg2 < 0 := by omega
                   cases htok3 : tokens[i+2]? with
                   | none =>
                     exact ih _ _ _ ⟨hasm, keysCons hkeys var _ _, negCons ho hneg,
                       negCons ho2 hneg2, le_of_lt ho, le_of_lt ho2, rfl, rfl, rfl⟩
                   | some t3 =>
                     cases t3 <;>
                       first
                       | (rename_i n
                          dsimp only
                          refine ih _ _ _ ⟨?_, keysCons hkeys var _ _, negCons ho hneg,
                            negCons ho2 hneg2, le_of_lt ho, le_of_lt ho2, rfl, rfl, rfl⟩
                          exact asmEqv_append (asmEqv_append (asmEqv_append
                            (asmEqv_append (asmEqv_append hasm (asmEqv_refl _))
                            (asmEqv_refl _)) (asmEqv_refl _))
                            (asmEqv_intRepr ho ho2)) (asmEqv_refl _))
                       | exact ih _ _ _ ⟨hasm, keysCons hkeys var _ _, negCons ho hneg,
                           negCons ho2 hneg2, le_of_lt ho, le_of_lt ho2, rfl, rfl, rfl⟩)
                | exact ih _ _ _ packAll
          · rw [if_neg h2, if_neg h2]
            by_cases h3 : name = "ref"
            · rw [if_pos h3, if_pos h3]
              cases htok2 : tokens[i+1]? with
              | none => exact ih _ _ _ packAll
              | some t2 =>
                cases t2 <;>
                  first
                  | (rename_i var
                     dsimp only
                     refine ih _ _ _ ⟨asmEqv_append hasm ?_, hkeys, hneg, hneg2,
                       hso, hso2, rfl, rfl, rfl⟩
                     cases hl : lookupVar st.vars var with
                     | none =>
                       rw [(lookupVar_none_iff hkeys var).mp hl]
                       exact asmEqv_refl ""
                     | some o =>
                       cases hl2 : lookupVar st2.vars var with
                       | none =>
                         have hx := (lookupVar_none_iff hkeys var).mpr hl2
                         rw [hl] at hx
                         exact absurd hx (by simp)
                       | some o2 =>
                         exact asmEqv_append (asmEqv_append (asmEqv_refl _)
                           (asmEqv_intRepr (lookupVar_neg hneg hl)
                             (lookupVar_neg hneg2 hl2))) (asmEqv_refl _))
                  | exact ih _ _ _ packAll
            · rw [if_neg h3, if_neg h3]
              by_cases h4 : name = "loop"
              · rw [if_pos h4, if_pos h4]
                exact ih _ _ _ ⟨asmEqv_append (asmEqv_append hasm (asmEqv_refl _))
                  (asmEqv_refl _), hkeys, hneg, hneg2, hso, hso2, rfl, rfl, rfl⟩
              · rw [if_neg h4, if_neg h4]
                by_cases h5 : name = "brk"
                · rw [if_pos h5, if_pos h5]
                  cases hls : st2.loopStack with
                  | nil => exact ih _ _ _ packAll
                  | cons p rest =>
                    obtain ⟨p1, p2⟩ := p
                    exact ih _ _ _ ⟨asmEqv_append (asmEqv_append (asmEqv_append hasm
                      (asmEqv_refl _)) (asmEqv_refl _)) (asmEqv_refl _), hkeys, hneg,
                      hneg2, hso, hso2, rfl, rfl, rfl⟩
                · rw [if_neg h5, if_neg h5]
                  by_cases h6 : name = "jump"
                  · rw [if_pos h6, if_pos h6]
                    cases htok2 : tokens[i+1]? with
                    | none => exact ih _ _ _ packAll
                    | some t2 =>
                      cases t2 <;>
                        first
                        | (rename_i label
                           dsimp only
                           exact ih _ _ _ ⟨asmEqv_append (asmEqv_append (asmEqv_append
                             hasm (asmEqv_refl _)) (asmEqv_refl _)) (asmEqv_refl _),
                             hkeys, hneg, hneg2, hso, hso2, rfl, rfl, rfl⟩)
                        | exact ih _ _ _ packAll
                  · rw [if_neg h6, if_neg h6]
                    by_cases h7 : name = "imp"
                    · rw [if_pos h7, if_pos h7]
                      cases htok2 : tokens[i+1]? with
                      | none => exact ih _ _ _ packAll
                      | some t2 =>
                        cases t2 <;>
                          first
                          | (rename_i path
                             dsimp only
                             exact ih _ _ _ ⟨asmEqv_append (asmEqv_append
                               (asmEqv_append hasm (asmEqv_refl _)) (asmEqv_refl _))
                               (asmEqv_refl _), hkeys, hneg, hneg2, hso, hso2,
                               rfl, rfl, rfl⟩)
                          | exact ih _ _ _ packAll
                    · rw [if_neg h7, if_neg h7]
                      by_cases h8 : name = "asm"
                      · rw [if_pos h8, if_pos h8]
                        exact ih _ _ _ ⟨asmEqv_append (asmEqv_append hasm
                          (asmEqv_refl _)) (asmEqv_refl _), hkeys, hneg, hneg2,
                          hso, hso2, rfl, rfl, rfl⟩
                      · rw [if_neg h8, if_neg h8]
                        cases htokb :
                            tokens[(scanArgs tokens (tokens.length + 1) (i+1) []).2]? with
                        | none => exact ih _ _ _ packAll
                        | some tb =>
                          cases tb <;>
                            first
                            | (dsimp only
                               apply ih
                               apply bindParams_sim hreg hreg2
                               exact ⟨asmEqv_append (asmEqv_append hasm (asmEqv_refl _))
                                 (asmEqv_refl _), hkeys, hneg, hneg2, le_refl 0,
                                 le_refl 0, rfl, rfl, rfl⟩)
                            | exact ih _ _ _ packAll
      | operation op =>
        dsimp only
        by_cases hA : op = "+" ∨ op = "-" ∨ op = "*" ∨ op = "/"
        · rw [if_pos hA, if_pos hA]
          by_cases hG : 0 < i ∧ i + 1 < tokens.length
          · rw [if_pos hG, if_pos hG]
            apply ih
            refine ⟨?_, hkeys, hneg, hneg2, hso, hso2, rfl, rfl, rfl⟩
            exact asmEqv_append (asmEqv_append (asmEqv_append (asmEqv_append
              (asmEqv_append (asmEqv_append hasm
                (asmEqv_primaryLoad hkeys hneg hneg2 _))
                (asmEqv_secondaryLoad hkeys hneg hneg2 _)) (asmEqv_refl _))
              (asmEqv_refl _)) (asmEqv_refl _))
              (asmEqv_writeBack hkeys hneg hneg2 _)
          · rw [if_neg hG, if_neg hG]
            exact ih _ _ _ packAll
        · rw [if_neg hA, if_neg hA]
          by_cases hC : op = "==" ∨ op = "!=" ∨ op = "<" ∨ op = ">" ∨ op = "<=" ∨ op = ">="
          · rw [if_pos hC, if_pos hC]
            by_cases hG : 0 < i ∧ i + 1 < tokens.length
            · rw [if_pos hG, if_pos hG]
              apply ih
              refine ⟨?_, hkeys, hneg, hneg2, hso, hso2, rfl, rfl, rfl⟩
              exact asmEqv_append (asmEqv_append (asmEqv_append (asmEqv_append
                (asmEqv_append hasm (asmEqv_cmpLoadPrimary hkeys hneg hneg2 _))
                (asmEqv_cmpLoadSecondary hkeys hneg hneg2 _)) (asmEqv_refl _))
                (asmEqv_refl _)) (asmEqv_refl _)
            · rw [if_neg hG, if_neg hG]
              exact ih _ _ _ packAll
          · rw [if_neg hC, if_neg hC]
            by_cases hT : op = "->"
            · rw [if_pos hT, if_pos hT]
              exact ih _ _ _ ⟨asmEqv_append (asmEqv_append (asmEqv_append hasm
                (asmEqv_refl _)) (asmEqv_refl _)) (asmEqv_refl _), hkeys, hneg,
                hneg2, hso, hso2, rfl, rfl, rfl⟩
            · rw [if_neg hT, if_neg hT]
              by_cases hE : op = "!->"
              · rw [if_pos hE, if_pos hE]
                cases his : st2.ifStack with
                | nil => exact ih _ _ _ packAll
                | cons e rest =>
                  exact ih _ _ _ ⟨asmEqv_append (asmEqv_append (asmEqv_append hasm
                    (asmEqv_refl _)) (asmEqv_refl _)) (asmEqv_refl _), hkeys, hneg,
                    hneg2, hso, hso2, rfl, rfl, rfl⟩
              · rw [if_neg hE, if_neg hE]
                exact ih _ _ _ packAll
      | braceClose =>
        cases hls : st2.loopStack with
        | nil =>
          cases his : st2.ifStack with
          | nil => exact ih _ _ _ packAll
          | cons e rest =>
            exact ih _ _ _ ⟨asmEqv_append (asmEqv_append hasm (asmEqv_refl _))
              (asmEqv_refl _), hkeys, hneg, hneg2, hso, hso2, rfl, rfl, rfl⟩
        | cons p lrest =>
          obtain ⟨p1, p2⟩ := p
          cases his : st2.ifStack with
          | nil =>
            exact ih _ _ _ ⟨asmEqv_append (asmEqv_append hasm (asmEqv_refl _))
              (asmEqv_refl _), hkeys, hneg, hneg2, hso, hso2, rfl, rfl, rfl⟩
          | cons e irest =>
            exact ih _ _ _ ⟨asmEqv_append (asmEqv_append (asmEqv_append
              (asmEqv_append hasm (asmEqv_refl _)) (asmEqv_refl _)) (asmEqv_refl _))
              (asmEqv_refl _), hkeys, hneg, hneg2, hso, hso2, rfl, rfl, rfl⟩
      | number n =>
        exact ih _ _ _ ⟨asmEqv_append (asmEqv_append (asmEqv_append hasm
          (asmEqv_refl _)) (asmEqv_refl _)) (asmEqv_refl _), hkeys, hneg, hneg2,
          hso, hso2, rfl, rfl, rfl⟩
      | stringLiteral s =>
        exact ih _ _ _ ⟨asmEqv_append (asmEqv_append (asmEqv_append (asmEqv_append
          (asmEqv_append (asmEqv_append hasm (asmEqv_refl _)) (asmEqv_refl _))
          (asmEqv_refl _)) (asmEqv_refl _)) (asmEqv_refl _)) (asmEqv_refl _),
          hkeys, hneg, hneg2, hso, hso2, rfl, rfl, rfl⟩
      | symbol c => exact ih _ _ _ packAll
      | char c => exact ih _ _ _ packAll
      | semiColon => exact ih _ _ _ packAll
      | parenOpen => exact ih _ _ _ packAll
      | parenClose => exact ih _ _ _ packAll
      | braceOpen => exact ih _ _ _ packAll
      | squareOpen => exact ih _ _ _ packAll
      | squareClose => exact ih _ _ _ packAll

/-- Claim C1 (code_bug): the spec requires `tokenize` to be total with
explicit bounds checks, turning an unterminated string/char literal, a
trailing multi-character-operator prefix, or a trailing identifier/number
run into a `MalformedInput` error.  The source instead indexes one past the
end of `chars` in each of these situations (a Rust panic, modelled as
`LexErr.indexOutOfBounds`): `"abc` dies inside the string-literal loop,
`abc` inside the identifier loop, and `a-` in the operator lookahead, while
a properly terminated input lexes normally. -/
theorem c1_tokenize_out_of_bounds :
    tokenize "\"abc" = Except.error LexErr.indexOutOfBounds ∧
    tokenize "abc" = Except.error LexErr.indexOutOfBounds ∧
    tokenize "a-" = Except.error LexErr.indexOutOfBounds ∧
    tokenize "ab " = Except.ok [Token.identifier "ab"] := by
  refine ⟨?_, ?_, ?_, ?_⟩ <;> decide

/-- Claim C2 (counterexample): on the token sequence of
`a == b -> { ret 1; } !-> { ret 0; }` the generator never emits the claimed
unconditional `jmp .if_end0`: the output is exactly `c2Output`, and the text
`jmp .if_end0` does not occur in it (the only jump is the conditional
`je .if_end0`), because the first closing brace already pops the if stack
and defines `.if_end0:` before `!->` is reached. -/
theorem c2_counterexample :
    generateAsmTarget c2Tokens true = c2Output ∧
    ¬ ("jmp .if_end0".data <:+: c2Output.data) := by
  refine ⟨?_, ?_⟩ <;> decide

/-- Claim C2 (amended): for the token sequence of
`a == b -> { ret 1; } !-> { ret 0; }`, the generator emits the
compare-and-zero-extend sequence for `a == b`, the conditional jump to
`.if_end0` taken when `rax` is zero, the `ret 1` block, then — at the first
closing brace — the label definition `.if_end0:` (popping the if stack), so
the subsequent `!->` finds an empty if stack and emits nothing, and the
`ret 0` block follows the label. -/
theorem c2_amended :
    tokenize c2Source = Except.ok c2Tokens ∧
    generateAsmTarget c2Tokens true = c2Output := by
  refine ⟨?_, ?_⟩ <;> decide

/-- Claim C3 (counterexample): a lone `:` does not produce the
single-character `Operation(":")` token the claim requires; the source's
`:` arm pushes nothing when the next character is not `=`, so `": "`
lexes to the empty token list. -/
theorem c3_counterexample :
    tokenize ": " = Except.ok [] ∧
    tokenize ": " ≠ Except.ok [Token.operation ":"] := by
  refine ⟨?_, ?_⟩ <;> decide

/-- Claim C3 (amended): for every input, position and token accumulator, the
peek-merge-advance rule holds for `-`, `*`, `=`, `&`, `|` and for `!=`.  For
`>` and `+` the lookahead condition is vacuously true, so the
single-character token is always emitted whatever the next character is
(`>=` lexes as `>` then `=`, `+=` as `+` then `=`).  For `/` the merged `/=`
token is emitted without advancing, so the `=` is tokenized again.  A lone
`!` and the three-character `!->` additionally skip one following
character.  A lone `:` emits no token at all.  Every one of these operators
reads `chars[i+1]` unconditionally, so at the end of input the read is out
of bounds.  The trailing conjuncts ground the step lemmas in full
`tokenize` runs on representative inputs. -/
theorem c3_lookahead_behavior :
    (∀ (cs : List Char) (fuel i : Nat) (acc : List Token) (c1 : Char),
      cs[i]? = some '-' → cs[i+1]? = some c1 → c1 = '=' ∨ c1 = '>' ∨ c1 = '-' →
      tokGo cs (fuel+1) i acc =
        tokGo cs fuel (i+2) (acc ++ [Token.operation (String.mk ['-', c1])])) ∧
    (∀ (cs : List Char) (fuel i : Nat) (acc : List Token) (c1 : Char),
      cs[i]? = some '-' → cs[i+1]? = some c1 → c1 ≠ '=' → c1 ≠ '>' → c1 ≠ '-' →
      tokGo cs (fuel+1) i acc = tokGo cs fuel (i+1) (acc ++ [Token.operation "-"])) ∧
    (∀ (cs : List Char) (fuel i : Nat) (acc : List Token),
      cs[i]? = some '*' → cs[i+1]? = some '=' →
      tokGo cs (fuel+1) i acc = tokGo cs fuel (i+2) (acc ++ [Token.operation "*="])) ∧
    (∀ (cs : List Char) (fuel i : Nat) (acc : List Token) (c1 : Char),
      cs[i]? = some '*' → cs[i+1]? = some c1 → c1 ≠ '=' →
      tokGo cs (fuel+1) i acc = tokGo cs fuel (i+1) (acc ++ [Token.operation "*"])) ∧
    (∀ (cs : List Char) (fuel i : Nat) (acc : List Token),
      cs[i]? = some '=' → cs[i+1]? = some '=' →
      tokGo cs (fuel+1) i acc = tokGo cs fuel (i+2) (acc ++ [Token.operation "=="])) ∧
    (∀ (cs : List Char) (fuel i : Nat) (acc : List Token) (c1 : Char),
      cs[i]? = some '=' → cs[i+1]? = some c1 → c1 ≠ '=' →
      tokGo cs (fuel+1) i acc = tokGo cs fuel (i+1) (acc ++ [Token.operation "="])) ∧
    (∀ (cs : List Char) (fuel i : Nat) (acc : List Token),
      cs[i]? = some '&' → cs[i+1]? = some '&' →
      tokGo cs (fuel+1) i acc = tokGo cs fuel (i+2) (acc ++ [Token.operation "&&"])) ∧
    (∀ (cs : List Char) (fuel i : Nat) (acc : List Token) (c1 : Char),
      cs[i]? = some '&' → cs[i+1]? = some c1 → c1 ≠ '&' →
      tokGo cs (fuel+1) i acc = tokGo cs fuel (i+1) (acc ++ [Token.operation "&"])) ∧
    (∀ (cs : List Char) (fuel i : Nat) (acc : List Token),
      cs[i]? = some '|' → cs[i+1]? = some '|' →
      tokGo cs (fuel+1) i acc = tokGo cs fuel (i+2) (acc ++ [Token.operation "||"])) ∧
    (∀ (cs : List Char) (fuel i : Nat) (acc : List Token) (c1 : Char),
      cs[i]? = some '|' → cs[i+1]? = some c1 → c1 ≠ '|' →
      tokGo cs (fuel+1) i acc = tokGo cs fuel (i+1) (acc ++ [Token.operation "|"])) ∧
    (∀ (cs : List Char) (fuel i : Nat) (acc : List Token),
      cs[i]? = some '!' → cs[i+1]? = some '=' →
      tokGo cs (fuel+1) i acc = tokGo cs fuel (i+2) (acc ++ [Token.operation "!="])) ∧
    (∀ (cs : List Char) (fuel i : Nat) (acc : List Token) (c1 : Char),
      cs[i]? = some '>' → cs[i+1]? = some c1 →
      tokGo cs (fuel+1) i acc = tokGo cs fuel (i+1) (acc ++ [Token.operation ">"])) ∧
    (∀ (cs : List Char) (fuel i : Nat) (acc : List Token) (c1 : Char),
      cs[i]? = some '+' → cs[i+1]? = some c1 →
      tokGo cs (fuel+1) i acc = tokGo cs fuel (i+1) (acc ++ [Token.operation "+"])) ∧
    (∀ (cs : List Char) (fuel i : Nat) (acc : List Token),
      cs[i]? = some '/' → cs[i+1]? = some '=' →
      tokGo cs (fuel+1) i acc = tokGo cs fuel (i+1) (acc ++ [Token.operation "/="])) ∧
    (∀ (cs : List Char) (fuel i : Nat) (acc : List Token) (c1 : Char),
      cs[i]? = some '/' → cs[i+1]? = some c1 → c1 ≠ '=' →
      tokGo cs (fuel+1) i acc = tokGo cs fuel (i+1) (acc ++ [Token.operation "/"])) ∧
    (∀ (cs : List Char) (fuel i : Nat) (acc : List Token),
      cs[i]? = some '!' → cs[i+1]? = some '-' → cs[i+2]? = some '>' →
      tokGo cs (fuel+1) i acc = tokGo cs fuel (i+4) (acc ++ [Token.operation "!->"])) ∧
    (∀ (cs : List Char) (fuel i : Nat) (acc : List Token) (c2 : Char),
      cs[i]? = some '!' → cs[i+1]? = some '-' → cs[i+2]? = some c2 → c2 ≠ '>' →
      tokGo cs (fuel+1) i acc = tokGo cs fuel (i+2) (acc ++ [Token.operation "!"])) ∧
    (∀ (cs : List Char) (fuel i : Nat) (acc : List Token) (c1 : Char),
      cs[i]? = some '!' → cs[i+1]? = some c1 → c1 ≠ '-' → c1 ≠ '=' →
      tokGo cs (fuel+1) i acc = tokGo cs fuel (i+2) (acc ++ [Token.operation "!"])) ∧
    (∀ (cs : List Char) (fuel i : Nat) (acc : List Token),
      cs[i]? = some ':' → cs[i+1]? = some '=' →
      tokGo cs (fuel+1) i acc = tokGo cs fuel (i+2) (acc ++ [Token.operation ":="])) ∧
    (∀ (cs : List Char) (fuel i : Nat) (acc : List Token) (c1 : Char),
      cs[i]? = some ':' → cs[i+1]? = some c1 → c1 ≠ '=' →
      tokGo cs (fuel+1) i acc = tokGo cs fuel (i+1) acc) ∧
    (∀ (cs : List Char) (fuel i : Nat) (acc : List Token) (c : Char),
      cs[i]? = some c →
      (c = '>' ∨ c = '-' ∨ c = '+' ∨ c = '*' ∨ c = '/' ∨ c = '=' ∨ c = '!' ∨
        c = '&' ∨ c = '|' ∨ c = ':') →
      cs[i+1]? = none →
      tokGo cs (fuel+1) i acc = Except.error LexErr.indexOutOfBounds) ∧
    tokenize "a-=b;" = Except.ok [Token.identifier "a", Token.operation "-=",
      Token.identifier "b", Token.semiColon] ∧
    tokenize "a->b;" = Except.ok [Token.identifier "a", Token.operation "->",
      Token.identifier "b", Token.semiColon] ∧
    tokenize "a--b;" = Except.ok [Token.identifier "a", Token.operation "--",
      Token.identifier "b", Token.semiColon] ∧
    tokenize "a-b;" = Except.ok [Token.identifier "a", Token.operation "-",
      Token.identifier "b", Token.semiColon] ∧
    tokenize "a*=b;" = Except.ok [Token.identifier "a", Token.operation "*=",
      Token.identifier "b", Token.semiColon] ∧
    tokenize "a*b;" = Except.ok [Token.identifier "a", Token.operation "*",
      Token.identifier "b", Token.semiColon] ∧
    tokenize "a==b;" = Except.ok [Token.identifier "a", Token.operation "==",
      Token.identifier "b", Token.semiColon] ∧
    tokenize "a=b;" = Except.ok [Token.identifier "a", Token.operation "=",
      Token.identifier "b", Token.semiColon] ∧
    tokenize "a&&b;" = Except.ok [Token.identifier "a", Token.operation "&&",
      Token.identifier "b", Token.semiColon] ∧
    tokenize "a&b;" = Except.ok [Token.identifier "a", Token.operation "&",
      Token.identifier "b", Token.semiColon] ∧
    tokenize "a||b;" = Except.ok [Token.identifier "a", Token.operation "||",
      Token.identifier "b", Token.semiColon] ∧
    tokenize "a|b;" = Except.ok [Token.identifier "a", Token.operation "|",
      Token.identifier "b", Token.semiColon] ∧
    tokenize "a!=b;" = Except.ok [Token.identifier "a", Token.operation "!=",
      Token.identifier "b", Token.semiColon] ∧
    tokenize "a>=b;" = Except.ok [Token.identifier "a", Token.operation ">",
      Token.operation "=", Token.identifier "b", Token.semiColon] ∧
    tokenize "a>b;" = Except.ok [Token.identifier "a", Token.operation ">",
      Token.identifier "b", Token.semiColon] ∧
    tokenize "a+=b;" = Except.ok [Token.identifier "a", Token.operation "+",
      Token.operation "=", Token.identifier "b", Token.semiColon] ∧
    tokenize "a/=b;" = Except.ok [Token.identifier "a", Token.operation "/=",
      Token.operation "=", Token.identifier "b", Token.semiColon] ∧
    tokenize "a/b;" = Except.ok [Token.identifier "a", Token.operation "/",
      Token.identifier "b", Token.semiColon] ∧
    tokenize "a!b;" = Except.ok [Token.identifier "a", Token.operation "!",
      Token.semiColon] ∧
    tokenize "a!->b;" = Except.ok [Token.identifier "a", Token.operation "!->",
      Token.semiColon] ∧
    tokenize "a:=b;" = Except.ok [Token.identifier "a", Token.operation ":=",
      Token.identifier "b", Token.semiColon] ∧
    tokenize "a:b;" = Except.ok [Token.identifier "a", Token.identifier "b",
      Token.semiColon] ∧
    tokenize "a-" = Except.error LexErr.indexOutOfBounds := by
  refine ⟨?_, ?_, ?_, ?_, ?_, ?_, ?_, ?_, ?_, ?_, ?_, ?_, ?_, ?_, ?_, ?_, ?_, ?_,
    ?_, ?_, ?_, ?_⟩
  · intro cs fuel i acc c1 h0 h1 hc
    rw [tokGo]
    rcases hc with rfl | rfl | rfl <;> simp [h0, h1, getC, quoteChar]
  · intro cs fuel i acc c1 h0 h1 he hg hm
    rw [tokGo]
    simp [h0, h1, getC, quoteChar, he, hg, hm]
  · intro cs fuel i acc h0 h1
    rw [tokGo]
    simp [h0, h1, getC, quoteChar]
  · intro cs fuel i acc c1 h0 h1 he
    rw [tokGo]
    simp [h0, h1, getC, quoteChar, he]
  · intro cs fuel i acc h0 h1
    rw [tokGo]
    simp [h0, h1, getC, quoteChar]
  · intro cs fuel i acc c1 h0 h1 he
    rw [tokGo]
    simp [h0, h1, getC, quoteChar, he]
  · intro cs fuel i acc h0 h1
    rw [tokGo]
    simp [h0, h1, getC, quoteChar]
  · intro cs fuel i acc c1 h0 h1 he
    rw [tokGo]
    simp [h0, h1, getC, quoteChar, he]
  · intro cs fuel i acc h0 h1
    rw [tokGo]
    simp [h0, h1, getC, quoteChar]
  · intro cs fuel i acc c1 h0 h1 he
    rw [tokGo]
    simp [h0, h1, getC, quoteChar, he]
  · intro cs fuel i acc h0 h1
    rw [tokGo]
    simp [h0, h1, getC, quoteChar]
  · intro cs fuel i acc c1 h0 h1
    rw [tokGo]
    rcases eq_or_ne c1 '=' with rfl | hne
    · simp [h0, h1, getC, quoteChar]
    · simp [h0, h1, getC, quoteChar, hne]
  · intro cs fuel i acc c1 h0 h1
    rw [tokGo]
    rcases eq_or_ne c1 '=' with rfl | hne
    · simp [h0, h1, getC, quoteChar]
    · simp [h0, h1, getC, quoteChar, hne]
  · intro cs fuel i acc h0 h1
    rw [tokGo]
    simp [h0, h1, getC, quoteChar]
  · intro cs fuel i acc c1 h0 h1 he
    rw [tokGo]
    simp [h0, h1, getC, quoteChar, he]
  · intro cs fuel i acc h0 h1 h2
    rw [tokGo]
    simp [h0, h1, h2, getC, quoteChar]
  · intro cs fuel i acc c2 h0 h1 h2 hg
    rw [tokGo]
    simp [h0, h1, h2, getC, quoteChar, hg]
  · intro cs fuel i acc c1 h0 h1 hm he
    rw [tokGo]
    simp [h0, h1, getC, quoteChar, hm, he]
  · intro cs fuel i acc h0 h1
    rw [tokGo]
    simp [h0, h1, getC, quoteChar]
  · intro cs fuel i acc c1 h0 h1 he
    rw [tokGo]
    simp [h0, h1, getC, quoteChar, he]
  · intro cs fuel i acc c h0 hc h1
    rw [tokGo]
    rcases hc with rfl | rfl | rfl | rfl | rfl | rfl | rfl | rfl | rfl | rfl <;>
      simp [h0, h1, getC, quoteChar]
  · repeat' constructor

/-- Claim C3 (witness): each universal lookahead step lemma instantiated at
a minimal concrete input. -/
theorem c3_witness :
    tokGo ['-', '='] 2 0 [] = tokGo ['-', '='] 1 2 [Token.operation "-="] ∧
    tokGo ['-', 'x'] 2 0 [] = tokGo ['-', 'x'] 1 1 [Token.operation "-"] ∧
    tokGo ['*', '='] 2 0 [] = tokGo ['*', '='] 1 2 [Token.operation "*="] ∧
    tokGo ['*', 'x'] 2 0 [] = tokGo ['*', 'x'] 1 1 [Token.operation "*"] ∧
    tokGo ['=', '='] 2 0 [] = tokGo ['=', '='] 1 2 [Token.operation "=="] ∧
    tokGo ['=', 'x'] 2 0 [] = tokGo ['=', 'x'] 1 1 [Token.operation "="] ∧
    tokGo ['&', '&'] 2 0 [] = tokGo ['&', '&'] 1 2 [Token.operation "&&"] ∧
    tokGo ['&', 'x'] 2 0 [] = tokGo ['&', 'x'] 1 1 [Token.operation "&"] ∧
    tokGo ['|', '|'] 2 0 [] = tokGo ['|', '|'] 1 2 [Token.operation "||"] ∧
    tokGo ['|', 'x'] 2 0 [] = tokGo ['|', 'x'] 1 1 [Token.operation "|"] ∧
    tokGo ['!', '='] 2 0 [] = tokGo ['!', '='] 1 2 [Token.operation "!="] ∧
    tokGo ['>', '='] 2 0 [] = tokGo ['>', '='] 1 1 [Token.operation ">"] ∧
    tokGo ['+', '='] 2 0 [] = tokGo ['+', '='] 1 1 [Token.operation "+"] ∧
    tokGo ['/', '='] 2 0 [] = tokGo ['/', '='] 1 1 [Token.operation "/="] ∧
    tokGo ['/', 'x'] 2 0 [] = tokGo ['/', 'x'] 1 1 [Token.operation "/"] ∧
    tokGo ['!', '-', '>'] 2 0 [] = tokGo ['!', '-', '>'] 1 4 [Token.operation "!->"] ∧
    tokGo ['!', '-', 'x'] 2 0 [] = tokGo ['!', '-', 'x'] 1 2 [Token.operation "!"] ∧
    tokGo ['!', 'x'] 2 0 [] = tokGo ['!', 'x'] 1 2 [Token.operation "!"] ∧
    tokGo [':', '='] 2 0 [] = tokGo [':', '='] 1 2 [Token.operation ":="] ∧
    tokGo [':', 'x'] 2 0 [] = tokGo [':', 'x'] 1 1 [] ∧
    tokGo ['-'] 2 0 [] = Except.error LexErr.indexOutOfBounds := by
  obtain ⟨u1, u2, u3, u4, u5, u6, u7, u8, u9, u10, u11, u12, u13, u14, u15, u16,
    u17, u18, u19, u20, u21, -⟩ := c3_lookahead_behavior
  exact ⟨u1 _ 1 0 [] '=' (by decide) (by decide) (Or.inl rfl),
    u2 _ 1 0 [] 'x' (by decide) (by decide) (by decide) (by decide) (by decide),
    u3 _ 1 0 [] (by decide) (by decide),
    u4 _ 1 0 [] 'x' (by decide) (by decide) (by decide),
    u5 _ 1 0 [] (by decide) (by decide),
    u6 _ 1 0 [] 'x' (by decide) (by decide) (by decide),
    u7 _ 1 0 [] (by decide) (by decide),
    u8 _ 1 0 [] 'x' (by decide) (by decide) (by decide),
    u9 _ 1 0 [] (by decide) (by decide),
    u10 _ 1 0 [] 'x' (by decide) (by decide) (by decide),
    u11 _ 1 0 [] (by decide) (by decide),
    u12 _ 1 0 [] '=' (by decide) (by decide),
    u13 _ 1 0 [] '=' (by decide) (by decide),
    u14 _ 1 0 [] (by decide) (by decide),
    u15 _ 1 0 [] 'x' (by decide) (by decide) (by decide),
    u16 _ 1 0 [] (by decide) (by decide) (by decide),
    u17 _ 1 0 [] 'x' (by decide) (by decide) (by decide) (by decide),
    u18 _ 1 0 [] 'x' (by decide) (by decide) (by decide) (by decide),
    u19 _ 1 0 [] (by decide) (by decide),
    u20 _ 1 0 [] 'x' (by decide) (by decide) (by decide),
    u21 _ 1 0 [] '-' (by decide) (Or.inr (Or.inl rfl)) (by decide)⟩

/-- Claim C4 (counterexample): re-binding a name that is already present in
the offset table does allocate a new slot.  After `mem x 1; mem x 2` the
running offset has moved from `-8` to `-16`, `x` is re-bound at `-16`, and
the ghost binding log shows two distinct slots for `x`. -/
theorem c4_counterexample :
    (genRun [Token.identifier "mem", Token.identifier "x", Token.number "1"] true).stackOffset
      = -8 ∧
    (genRun c4RebindTokens true).stackOffset = -16 ∧
    lookupVar (genRun c4RebindTokens true).vars "x" = some (-16) ∧
    (genRun c4RebindTokens true).scopeBindings = [("x", -8), ("x", -16)] := by
  refine ⟨?_, ?_, ?_, ?_⟩ <;> decide

/-- Claim C4 (amended): within one function scope during generation, every
binding made by `mem` or a parameter — including a re-binding of a name
already in the table, which also decrements the running offset and occupies
a fresh slot — receives a strictly more negative frame offset than all
bindings made earlier in that scope; for `f a b { mem x 5; ret x; }` in
8-byte mode, `a`, `b`, `x` are bound at offsets `-8`, `-16`, `-24`. -/
theorem c4_frame_monotonicity :
    (∀ (tokens : List Token) (double : Bool),
      (genRun tokens double).scopeBindings.Pairwise (fun a b => b.2 < a.2)) ∧
    generateAsmTarget c4ExampleTokens true = c4ExampleOutput ∧
    lookupVar (genRun c4ExampleTokens true).vars "a" = some (-8) ∧
    lookupVar (genRun c4ExampleTokens true).vars "b" = some (-16) ∧
    lookupVar (genRun c4ExampleTokens true).vars "x" = some (-24) := by
  refine ⟨?_, by decide, by decide, by decide, by decide⟩
  intro tokens double
  exact (genGo_inv tokens (regSize_pos double) (tokens.length + 1) 0 initState
    stateInv_init).1.2

/-- Claim C6: all counter-derived labels allocated within one generation run
(`.loop_startN`/`.loop_endN` pairs, `.if_endN`, `.strN`) are pairwise
distinct as strings, because the label counter only increases and is never
reset; the ghost `labels` field records every allocation. -/
theorem c6_label_uniqueness :
    ∀ (tokens : List Token) (double : Bool),
      ((genRun tokens double).labels.map (fun q => renderLabel q.1 q.2)).Pairwise
        (fun a b => a ≠ b) := by
  intro tokens double
  have hinv := genGo_inv tokens (regSize_pos double) (tokens.length + 1) 0 initState
    stateInv_init
  refine hinv.2.2.map _ ?_
  intro a b hab hr
  apply hab
  obtain ⟨hk, hn⟩ := renderLabel_injective hr
  obtain ⟨a1, a2⟩ := a
  obtain ⟨b1, b2⟩ := b
  simp only at hk hn
  rw [hk, hn]

/-- Claim C5 (counterexample): for the arithmetic operator in `a + b` with
`a` and `b` unbound, the generator emits no operand loads at all — the step
produces only `add rax, rbx` — contradicting the claim that the left operand
is loaded into the primary register and the right into the secondary for
every arithmetic operator with a token before and after it. -/
theorem c5_counterexample :
    generateAsmTarget [Token.identifier "a", Token.operation "+", Token.identifier "b"] true =
      "    add rax, rbx\n" := by
  decide

/-- Claim C5 (amended): for an arithmetic operator token with a token before
and after it, one generator step appends exactly left-load ++ right-load ++
instruction ++ write-back, where a load is emitted from the frame slot when
the operand is a bound variable, as a move-immediate when it is a number,
and not at all otherwise (in particular for an unbound identifier); the
write-back to the left operand's frame slot is present — and nonempty —
exactly when the left operand is a bound variable.  For a comparison
operator the step appends only bound-variable loads (numbers are not loaded
as immediates) followed by the compare/set-flag/zero-extend sequence, and
never a write-back. -/
theorem c5_operator_emission :
    (∀ (tokens : List Token) (reg : Int) (fuel i : Nat) (st : GenState) (op : String),
      tokens[i]? = some (Token.operation op) →
      op = "+" ∨ op = "-" ∨ op = "*" ∨ op = "/" →
      0 < i → i + 1 < tokens.length →
      genGo tokens reg (fuel+1) i st =
        genGo tokens reg fuel (i+2)
          { st with asm := st.asm ++
              primaryLoad st.vars (tokens.getD (i-1) Token.semiColon) ++
              secondaryLoad st.vars (tokens.getD (i+1) Token.semiColon) ++
              "    " ++ arithInstr op ++ "\n" ++
              writeBack st.vars (tokens.getD (i-1) Token.semiColon) }) ∧
    (∀ (tokens : List Token) (reg : Int) (fuel i : Nat) (st : GenState) (op : String),
      tokens[i]? = some (Token.operation op) →
      op = "==" ∨ op = "!=" ∨ op = "<" ∨ op = ">" ∨ op = "<=" ∨ op = ">=" →
      0 < i → i + 1 < tokens.length →
      genGo tokens reg (fuel+1) i st =
        genGo tokens reg fuel (i+2)
          { st with asm := st.asm ++
              cmpLoadPrimary st.vars (tokens.getD (i-1) Token.semiColon) ++
              cmpLoadSecondary st.vars (tokens.getD (i+1) Token.semiColon) ++
              "    " ++ cmpInstr op ++ "\n" }) ∧
    (∀ (vars : List (String × Int)) (id : String) (off : Int),
      lookupVar vars id = some off →
      writeBack vars (Token.identifier id) = "    mov [rbp" ++ intRepr off ++ "], rax\n" ∧
      writeBack vars (Token.identifier id) ≠ "") ∧
    (∀ (vars : List (String × Int)) (id : String),
      lookupVar vars id = none → writeBack vars (Token.identifier id) = "") ∧
    (∀ (vars : List (String × Int)) (n : String),
      writeBack vars (Token.number n) = "") := by
  refine ⟨?_, ?_, ?_, ?_, ?_⟩
  · intro tokens reg fuel i st op htok hop hi hlen
    rw [genGo]
    rcases hop with rfl | rfl | rfl | rfl <;> simp [htok, hi, hlen]
  · intro tokens reg fuel i st op htok hop hi hlen
    rw [genGo]
    rcases hop with rfl | rfl | rfl | rfl | rfl | rfl <;> simp [htok, hi, hlen]
  · intro vars id off h
    exact ⟨by simp [writeBack, h], by rw [writeBack, h]; exact store_line_ne_empty off⟩
  · intro vars id h
    simp [writeBack, h]
  · intro vars n
    simp [writeBack]

/-- Claim C5 (witness): the amended step equations and the write-back
characterization instantiated at `x + 2` and `x == 2` with `x` bound at
`-8`, and at a table binding `x`. -/
theorem c5_witness :
    (genGo [Token.identifier "x", Token.operation "+", Token.number "2"] 8 1 1
        { initState with vars := [("x", -8)] } =
      genGo [Token.identifier "x", Token.operation "+", Token.number "2"] 8 0 3
        { initState with
          vars := [("x", -8)]
          asm := "    mov rax, [rbp-8]\n    mov rbx, 2\n    add rax, rbx\n    mov [rbp-8], rax\n" }) ∧
    (genGo [Token.identifier "x", Token.operation "==", Token.number "2"] 8 1 1
        { initState with vars := [("x", -8)] } =
      genGo [Token.identifier "x", Token.operation "==", Token.number "2"] 8 0 3
        { initState with
          vars := [("x", -8)]
          asm := "    mov rax, [rbp-8]\n    cmp rax, rbx\n    sete al\n    movzx rax, al\n" }) ∧
    writeBack [("x", -8)] (Token.identifier "x") = "    mov [rbp-8], rax\n" ∧
    writeBack [("x", -8)] (Token.identifier "y") = "" := by
  refine ⟨?_, ?_, ?_, ?_⟩
  · exact c5_operator_emission.1 _ 8 0 1 _ "+" (by decide) (Or.inl rfl) (by decide) (by decide)
  · exact c5_operator_emission.2.1 _ 8 0 1 _ "==" (by decide) (Or.inl rfl) (by decide)
      (by decide)
  · exact (c5_operator_emission.2.2.1 [("x", -8)] "x" (-8) (by decide)).1
  · exact c5_operator_emission.2.2.2.1 [("x", -8)] "y" (by decide)

/-- Claim C7: a non-keyword identifier followed by a contiguous run of
identifiers and an opening brace is processed as a function definition: the
step emits the label and prologue, resets the running stack offset to 0, and
binds each parameter in order at one fresh slot each (parameter `k` of `n`
ends at offset `-(reg * (k+1))`, the running offset at `-(reg * n)`), while
the offset table keeps every previously bound name unchanged unless a
parameter shadows it — the table is never cleared. -/
theorem c7_function_definition :
    ∀ (tokens : List Token) (reg : Int) (fuel i : Nat) (st : GenState)
      (name : String) (args : List String) (j : Nat),
      tokens[i]? = some (Token.identifier name) →
      name ≠ "ret" → name ≠ "mem" → name ≠ "ref" → name ≠ "loop" →
      name ≠ "brk" → name ≠ "jump" → name ≠ "imp" → name ≠ "asm" →
      scanArgs tokens (tokens.length + 1) (i+1) [] = (args, j) →
      tokens[j]? = some Token.braceOpen →
      genGo tokens reg (fuel+1) i st =
        genGo tokens reg fuel (j+1) (bindParams reg args (fnEntryState st name)) ∧
      (bindParams reg args (fnEntryState st name)).stackOffset = -(reg * args.length) ∧
      (∀ v, v ∉ args →
        lookupVar (bindParams reg args (fnEntryState st name)).vars v =
          lookupVar st.vars v) ∧
      (args.Nodup → ∀ k (hk : k < args.length),
        lookupVar (bindParams reg args (fnEntryState st name)).vars args[k] =
          some (-(reg * (k+1)))) := by
  intro tokens reg fuel i st name args j htok h1 h2 h3 h4 h5 h6 h7 h8 hscan hbrace
  refine ⟨?_, ?_, ?_, ?_⟩
  · rw [genGo]
    simp [htok, h1, h2, h3, h4, h5, h6, h7, h8, hscan, hbrace, fnEntryState]
  · rw [bindParams_stackOffset]
    show (0 : Int) - reg * args.length = _
    ring
  · intro v hv
    rw [bindParams_lookup_of_notMem reg args _ v hv]
    rfl
  · intro hnd k hk
    rw [bindParams_lookup_nth reg args _ hnd k hk]
    show some ((0 : Int) - reg * (k + 1)) = _
    rw [zero_sub]

/-- Claim C7 (witness): the function-definition step for `f a b {` from the
initial state: one step rewrites to the bound-parameters state, the running
offset is `-16`, a name not among the parameters is still looked up in the
old table, and `a`, `b` land at `-8`, `-16`. -/
theorem c7_witness :
    (genGo c7Tokens 8 4 0 initState =
      genGo c7Tokens 8 3 4 (bindParams 8 ["a", "b"] (fnEntryState initState "f"))) ∧
    (bindParams 8 ["a", "b"] (fnEntryState initState "f")).stackOffset = -16 ∧
    lookupVar (bindParams 8 ["a", "b"] (fnEntryState initState "f")).vars "z" =
      lookupVar initState.vars "z" ∧
    lookupVar (bindParams 8 ["a", "b"] (fnEntryState initState "f")).vars "a" =
      some (-8) ∧
    lookupVar (bindParams 8 ["a", "b"] (fnEntryState initState "f")).vars "b" =
      some (-16) := by
  obtain ⟨e1, e2, e3, e4⟩ := c7_function_definition c7Tokens 8 3 0 initState "f"
    ["a", "b"] 3 (by decide) (by decide) (by decide) (by decide) (by decide)
    (by decide) (by decide) (by decide) (by decide) (by decide) (by decide)
  refine ⟨e1, e2.trans (by decide), e3 "z" (by decide), ?_, ?_⟩
  · exact (e4 (by decide) 0 (by decide)).trans (by decide)
  · exact (e4 (by decide) 1 (by decide)).trans (by decide)

/-- Claim C8: `brk` with an empty loop stack, `!->` with an empty if stack,
and a closing brace with both stacks empty, each advance the cursor by one
and leave the whole generator state — emitted text included — unchanged; the
generator, being a total function, never aborts. -/
theorem c8_empty_stack_noop :
    (∀ (tokens : List Token) (reg : Int) (fuel i : Nat) (st : GenState),
      tokens[i]? = some (Token.identifier "brk") → st.loopStack = [] →
      genGo tokens reg (fuel+1) i st = genGo tokens reg fuel (i+1) st) ∧
    (∀ (tokens : List Token) (reg : Int) (fuel i : Nat) (st : GenState),
      tokens[i]? = some (Token.operation "!->") → st.ifStack = [] →
      genGo tokens reg (fuel+1) i st = genGo tokens reg fuel (i+1) st) ∧
    (∀ (tokens : List Token) (reg : Int) (fuel i : Nat) (st : GenState),
      tokens[i]? = some Token.braceClose → st.loopStack = [] → st.ifStack = [] →
      genGo tokens reg (fuel+1) i st = genGo tokens reg fuel (i+1) st) := by
  refine ⟨?_, ?_, ?_⟩
  · intro tokens reg fuel i st htok hstack
    rw [genGo]
    simp [htok, hstack]
  · intro tokens reg fuel i st htok hstack
    rw [genGo]
    simp [htok, hstack]
  · intro tokens reg fuel i st htok hloop hif
    rw [genGo]
    simp [htok, hloop, hif]

/-- Claim C8 (witness): the three silent no-ops from the initial state
(whose stacks are empty) on the one-token inputs `brk`, `!->` and `}`. -/
theorem c8_witness :
    (genGo [Token.identifier "brk"] 8 1 0 initState =
      genGo [Token.identifier "brk"] 8 0 1 initState) ∧
    (genGo [Token.operation "!->"] 8 1 0 initState =
      genGo [Token.operation "!->"] 8 0 1 initState) ∧
    (genGo [Token.braceClose] 8 1 0 initState =
      genGo [Token.braceClose] 8 0 1 initState) :=
  ⟨c8_empty_stack_noop.1 _ 8 0 0 initState (by decide) rfl,
   c8_empty_stack_noop.2.1 _ 8 0 0 initState (by decide) rfl,
   c8_empty_stack_noop.2.2 _ 8 0 0 initState (by decide) rfl rfl⟩

/-- Claim C10 (counterexample): a Number token immediately followed by an
arithmetic operator still produces its standalone move-immediate: `1 + 2`
emits `mov rax, 1` for the bare `1` and then the operator's own loads, so a
separate standalone move-immediate is emitted even though the number is the
operator's left operand. -/
theorem c10_counterexample :
    generateAsmTarget [Token.number "1", Token.operation "+", Token.number "2"] true =
      "    mov rax, 1\n    mov rax, 1\n    mov rbx, 2\n    add rax, rbx\n" := by
  decide

/-- Claim C10 (amended): whenever the cursor reaches a Number token the
generator emits a standalone move-immediate into the primary register and
advances by one, regardless of what follows; a Number escapes this only when
some earlier construct's cursor arithmetic skips it (`ret`/`mem` consume a
following number, an operator advances past its right operand). -/
theorem c10_number_step :
    ∀ (tokens : List Token) (reg : Int) (fuel i : Nat) (st : GenState) (n : String),
      tokens[i]? = some (Token.number n) →
      genGo tokens reg (fuel+1) i st =
        genGo tokens reg fuel (i+1)
          { st with asm := st.asm ++ "    mov rax, " ++ n ++ "\n" } := by
  intro tokens reg fuel i st n htok
  rw [genGo]
  simp [htok]

/-- Claim C10 (witness): the standalone move-immediate step at a bare `7`. -/
theorem c10_witness :
    genGo [Token.number "7"] 8 1 0 initState =
      genGo [Token.number "7"] 8 0 1 { initState with asm := "    mov rax, 7\n" } :=
  c10_number_step [Token.number "7"] 8 0 0 initState "7" (by decide)

/-- Claim C9 (counterexample): for the token sequence `ret 1`, the 4-byte
and 8-byte modes produce literally identical output — the register-width
word in the emitted instructions does not change with the flag (the
generator prints `rax`/`rbx` unconditionally), contradicting the claim that
the flag changes the register-width word choice for every token sequence. -/
theorem c9_counterexample :
    generateAsmTarget [Token.identifier "ret", Token.number "1"] false =
      generateAsmTarget [Token.identifier "ret", Token.number "1"] true ∧
    generateAsmTarget [Token.identifier "ret", Token.number "1"] true =
      "    mov rax, 1\n    leave\n    ret\n" := by
  refine ⟨?_, ?_⟩ <;> decide

/-- Claim C9 (amended): for every token sequence, the word-size flag changes
only the per-slot frame stride: the 4-byte-mode and 8-byte-mode outputs are
identical once decimal digit characters are erased — same mnemonics, same
register names (always the 64-bit ones), same labels and punctuation — so
the two outputs can differ only inside embedded decimal numbers, and the
frame offsets are the only numbers the flag influences.  Concretely,
`mem x 5;` stores to `[rbp-4]` versus `[rbp-8]`, and `f a b { mem x 5; }`
binds its slots at `-4, -8, -12` versus `-8, -16, -24` with identical
instruction text around them. -/
theorem c9_stride_only :
    (∀ tokens : List Token,
      (generateAsmTarget tokens false).data.filter nonDigit =
        (generateAsmTarget tokens true).data.filter nonDigit) ∧
    generateAsmTarget c9MemTokens false = "    mov rax, 5\n    mov [rbp-4], rax\n" ∧
    generateAsmTarget c9MemTokens true = "    mov rax, 5\n    mov [rbp-8], rax\n" ∧
    (generateAsmTarget c9MemTokens false).data.map (fun c => if c = '4' then '8' else c) =
      (generateAsmTarget c9MemTokens true).data ∧
    generateAsmTarget c9FnTokens false =
      "f:\n    push rbp\n    mov rbp, rsp\n    ; arg a at [rbp-4]\n    ; arg b at [rbp-8]\n" ++
        "    mov rax, 5\n    mov [rbp-12], rax\n" ∧
    generateAsmTarget c9FnTokens true =
      "f:\n    push rbp\n    mov rbp, rsp\n    ; arg a at [rbp-8]\n    ; arg b at [rbp-16]\n" ++
        "    mov rax, 5\n    mov [rbp-24], rax\n" := by
  refine ⟨?_, by decide, by decide, by decide, by decide, by decide⟩
  intro tokens
  exact (@genGo_sim tokens 4 8 (by norm_num) (by norm_num) (tokens.length + 1) 0
    initState initState
    ⟨rfl, rfl, by simp [initState], by simp [initState], le_refl 0, le_refl 0,
      rfl, rfl, rfl⟩).1
